import Mathlib

/-!
# pkg2zip: a shallow embedding of `pkg2zip.c`

Bytes are natural numbers below 256 and byte buffers are lists of bytes.
Machine integers are natural numbers reduced modulo `2^32` or `2^64` at every
place where the C arithmetic is carried out in `uint32_t` or `uint64_t`.
A run that stops in `fatal(...)` is an `Except.error` carrying the message's
`Fault`; an access outside the buffer a function was handed is the fault
`undefined_access`, because what the C program does there is not determined by
its input.

The definitions come first, the theorems follow.
-/

namespace Pkg2zip

deriving instance DecidableEq for Except

/-! ## Faults -/

/-- The ways a run ends other than by reaching the end of `main`: one
constructor per `fatal` message of `pkg2zip.c`, one for a failed `assert`, one
for a failure of an external collaborator, and one for an access outside the
memory a function was given. -/
inductive Fault where
  /-- The message "ERROR: not a pkg file". -/
  | not_a_pkg
  /-- The message "ERROR: pkg file is too small". -/
  | pkg_too_small
  /-- The message "ERROR: pkg file is too short, possible corrupted". -/
  | pkg_too_short
  /-- The message "ERROR: pkg file contains file with very long name". -/
  | name_too_long
  /-- The message "ERROR: incorrect sfo signature". -/
  | sfo_signature
  /-- The message "ERROR: sfo information is too small". -/
  | sfo_too_small
  /-- The message "ERROR: sfo information is too big, pkg file is probably corrupted". -/
  | sfo_too_big
  /-- The message "ERROR: cannot find title from sfo file, pkg is probably corrupted". -/
  | no_title
  /-- The message "ERROR: zRIF content id ... doesn't match pkg ...". -/
  | zrif_mismatch
  /-- A failed `assert`. -/
  | assert_failed
  /-- A failure raised inside an external collaborator (reader, decoder). -/
  | collaborator
  /-- An access outside the buffer, or a read of a buffer nothing was written to. -/
  | undefined_access
  /-- The iteration bound the model gives a `while` loop was used up before the
  loop condition failed. The bounds passed by the model are never used up. -/
  | no_fuel
  deriving DecidableEq, Repr

/-! ## Byte access -/

/-- Modelled from the spec: `get32be` of `pkg2zip_utils.h` (not in the source
tree), the big-endian 32-bit integer at `p + off`. Bytes beyond the list read
as 0; it is used on buffers that were read in full. -/
def get32be (p : List Nat) (off : Nat) : Nat :=
  p.getD off 0 * 2 ^ 24 + p.getD (off + 1) 0 * 2 ^ 16 + p.getD (off + 2) 0 * 2 ^ 8
    + p.getD (off + 3) 0

/-- Modelled from the spec: `get64be` of `pkg2zip_utils.h` (not in the source
tree), the big-endian 64-bit integer at `p + off`. -/
def get64be (p : List Nat) (off : Nat) : Nat :=
  get32be p off * 2 ^ 32 + get32be p (off + 4)

/-- Modelled from the spec: `get16le` of `pkg2zip_utils.h` (not in the source
tree), the little-endian 16-bit integer at `p + off`; an access past the end
of the buffer is a fault. -/
def get16le (p : List Nat) (off : Nat) : Except Fault Nat :=
  if off + 2 ≤ p.length then
    .ok (p.getD off 0 + p.getD (off + 1) 0 * 2 ^ 8)
  else .error .undefined_access

/-- Modelled from the spec: `get32le` of `pkg2zip_utils.h` (not in the source
tree), the little-endian 32-bit integer at `p + off`; an access past the end
of the buffer is a fault. -/
def get32le (p : List Nat) (off : Nat) : Except Fault Nat :=
  if off + 4 ≤ p.length then
    .ok (p.getD off 0 + p.getD (off + 1) 0 * 2 ^ 8 + p.getD (off + 2) 0 * 2 ^ 16
      + p.getD (off + 3) 0 * 2 ^ 24)
  else .error .undefined_access

/-- The bytes of a 32-bit value, most significant first (used to write inputs). -/
def be32 (n : Nat) : List Nat :=
  [n / 2 ^ 24 % 256, n / 2 ^ 16 % 256, n / 2 ^ 8 % 256, n % 256]

/-- The bytes of a 64-bit value, most significant first (used to write inputs). -/
def be64 (n : Nat) : List Nat :=
  be32 (n / 2 ^ 32) ++ be32 (n % 2 ^ 32)

/-- The bytes of a 16-bit value, least significant first (used to write inputs). -/
def le16 (n : Nat) : List Nat :=
  [n % 256, n / 2 ^ 8 % 256]

/-- The bytes of a 32-bit value, least significant first (used to write inputs). -/
def le32 (n : Nat) : List Nat :=
  [n % 256, n / 2 ^ 8 % 256, n / 2 ^ 16 % 256, n / 2 ^ 24 % 256]

/-! ## The package header (`main`, lines 277 to 302) -/

/-- The locals `main` fills from the 256 header bytes (lines 286 to 293). -/
structure PkgHeader where
  /-- `uint64_t meta_offset = get32be(pkg_header + 8)`. -/
  meta_offset : Nat
  /-- `uint32_t meta_count = get32be(pkg_header + 12)`. -/
  meta_count : Nat
  /-- `uint32_t item_count = get32be(pkg_header + 20)`. -/
  item_count : Nat
  /-- `uint64_t total_size = get64be(pkg_header + 24)`. -/
  total_size : Nat
  /-- `uint64_t enc_offset = get64be(pkg_header + 32)`. -/
  enc_offset : Nat
  /-- `uint64_t enc_size = get64be(pkg_header + 40)`. -/
  enc_size : Nat
  /-- `iv = pkg_header + 0x70`, the 16 bytes used as initialization vector. -/
  iv : List Nat
  /-- `key_type = pkg_header[0xe7] & 7`. -/
  key_type : Nat
  deriving DecidableEq, Repr

/-- The initialization vector, header bytes 0x70 to 0x7F. -/
def header_iv (pkg_header : List Nat) : List Nat :=
  (pkg_header.drop 0x70).take 16

/-- The key selector, `pkg_header[0xe7] & 7`. -/
def header_key_type (pkg_header : List Nat) : Nat :=
  pkg_header.getD 0xe7 0 &&& 7

/-- Lines 280 to 293 of `main`: the two magic values are compared, then the
header fields are decoded. -/
def read_header (pkg_header : List Nat) : Except Fault PkgHeader :=
  if get32be pkg_header 0 ≠ 0x7f504b47 ∨ get32be pkg_header 192 ≠ 0x7F657874 then
    .error .not_a_pkg
  else
    .ok { meta_offset := get32be pkg_header 8
          meta_count := get32be pkg_header 12
          item_count := get32be pkg_header 20
          total_size := get64be pkg_header 24
          enc_offset := get64be pkg_header 32
          enc_size := get64be pkg_header 40
          iv := header_iv pkg_header
          key_type := header_key_type pkg_header }

/-- Lines 295 to 302 of `main`. `item_count * 32` is a `uint32_t` product and
the sum with `enc_offset` is a `uint64_t` sum. -/
def check_sizes (pkg_size : Nat) (h : PkgHeader) : Except Fault Unit :=
  if pkg_size < h.total_size then
    .error .pkg_too_small
  else if pkg_size < (h.enc_offset + h.item_count * 32 % 2 ^ 32) % 2 ^ 64 then
    .error .pkg_too_small
  else
    .ok ()

/-- Header validation, lines 277 to 302 of `main`: everything the program does
with the header before it scans the metadata blocks and derives keys. -/
def validate_header (pkg_size : Nat) (pkg_header : List Nat) : Except Fault PkgHeader := do
  let h ← read_header pkg_header
  check_sizes pkg_size h
  pure h

/-- A 256-byte header with valid magic values, the given fields, the
initialization vector `iv` at 0x70 and `key_type` at 0xE7; every other byte is
zero. -/
def make_header (meta_offset meta_count item_count total_size enc_offset enc_size : Nat)
    (iv : List Nat) (key_type : Nat) : List Nat :=
  be32 0x7f504b47 ++ [0, 0, 0, 0] ++ be32 meta_offset ++ be32 meta_count ++ [0, 0, 0, 0]
    ++ be32 item_count ++ be64 total_size ++ be64 enc_offset ++ be64 enc_size
    ++ List.replicate 64 0 ++ iv.take 16 ++ List.replicate (16 - (iv.take 16).length) 0
    ++ List.replicate 64 0 ++ be32 0x7F657874 ++ List.replicate 35 0 ++ [key_type]
    ++ List.replicate 24 0

/-! ## Item records (`main`, lines 478 to 502; `find_psp_sfo`, lines 189 to 207) -/

/-- The fields decoded from a decrypted 32-byte item record. -/
structure Item where
  /-- `uint32_t name_offset = get32be(item + 0)`. -/
  name_offset : Nat
  /-- `uint32_t name_size = get32be(item + 4)`. -/
  name_size : Nat
  /-- `uint64_t data_offset = get64be(item + 8)`. -/
  data_offset : Nat
  /-- `uint64_t data_size = get64be(item + 16)`. -/
  data_size : Nat
  /-- `uint8_t psp_type = item[24]`. -/
  psp_type : Nat
  /-- `uint8_t flags = item[27]`. -/
  flags : Nat
  deriving DecidableEq, Repr

/-- Lines 483 to 488 of `main` (and 194 to 198 of `find_psp_sfo`, which does not
read the flags byte). -/
def read_item (item : List Nat) : Item :=
  { name_offset := get32be item 0
    name_size := get32be item 4
    data_offset := get64be item 8
    data_size := get64be item 16
    psp_type := item.getD 24 0
    flags := item.getD 27 0 }

/-- Lines 490 and 491 of `main` (200 and 201 of `find_psp_sfo`). -/
def assert_item (it : Item) : Except Fault Unit :=
  if it.name_offset % 16 ≠ 0 then .error .assert_failed
  else if it.data_offset % 16 ≠ 0 then .error .assert_failed
  else .ok ()

/-- Lines 493 to 497 of `main` (203 to 207 of `find_psp_sfo`): both sums are
`uint64_t` sums, evaluated left to right. -/
def check_item (pkg_size enc_offset : Nat) (it : Item) : Except Fault Unit :=
  if pkg_size < ((enc_offset + it.name_offset) % 2 ^ 64 + it.name_size) % 2 ^ 64 ∨
      pkg_size < ((enc_offset + it.data_offset) % 2 ^ 64 + it.data_size) % 2 ^ 64 then
    .error .pkg_too_short
  else
    .ok ()

/-- A 32-byte item record with the given fields (used to write inputs). -/
def make_item (name_offset name_size data_offset data_size psp_type flags : Nat) : List Nat :=
  be32 name_offset ++ be32 name_size ++ be64 data_offset ++ be64 data_size
    ++ [psp_type, 0, 0, flags, 0, 0, 0, 0]

/-! ## Key derivation (`main`, lines 16 to 20 and 339 to 366) -/

/-- The constant `pkg_ps3_key`. -/
def pkg_ps3_key : List Nat :=
  [0x2e, 0x7b, 0x71, 0xd7, 0xc9, 0xc9, 0xa1, 0x4e, 0xa3, 0x22, 0x1f, 0x18, 0x88, 0x28, 0xb8, 0xf8]

/-- The constant `pkg_psp_key`. -/
def pkg_psp_key : List Nat :=
  [0x07, 0xf2, 0xc6, 0x82, 0x90, 0xb5, 0x0d, 0x2c, 0x33, 0x81, 0x8d, 0x70, 0x9b, 0x60, 0xe6, 0x2b]

/-- The constant `pkg_vita_2`. -/
def pkg_vita_2 : List Nat :=
  [0xe3, 0x1a, 0x70, 0xc9, 0xce, 0x1d, 0xd7, 0x2b, 0xf3, 0xc0, 0x62, 0x29, 0x63, 0xf2, 0xec, 0xcb]

/-- The constant `pkg_vita_3`. -/
def pkg_vita_3 : List Nat :=
  [0x42, 0x3a, 0xca, 0x3a, 0x2b, 0xd5, 0x64, 0x9f, 0x96, 0x86, 0xab, 0xad, 0x6f, 0xd8, 0x80, 0x1f]

/-- The constant `pkg_vita_4`. -/
def pkg_vita_4 : List Nat :=
  [0xaf, 0x07, 0xfd, 0x59, 0x65, 0x25, 0x27, 0xba, 0xf1, 0x33, 0x89, 0x66, 0x8b, 0x17, 0xd9, 0xea]

/-- The two keys `main` holds after line 366. A key is `none` until a branch
of the derivation writes it: `main_key` and `ps3_key` are uninitialised locals
and no branch is taken for a selector outside 1 to 4. An `aes128_key` is
represented by the 16 key bytes `aes128_init` was given. -/
structure Keys where
  /-- The bytes of `main_key`, from which `key` is initialised on line 366. -/
  main_key : Option (List Nat)
  /-- The bytes `ps3_key` was initialised with. -/
  ps3_key : Option (List Nat)
  deriving DecidableEq, Repr

/-- Lines 339 to 366 of `main`. `ecb k b` stands for the external
`aes128_ecb_encrypt` of the block `b` under a key initialised from the bytes
`k`. -/
def derive_keys (ecb : List Nat → List Nat → List Nat) (pkg_header : List Nat) : Keys :=
  let iv := header_iv pkg_header
  let key_type := header_key_type pkg_header
  if key_type = 1 then
    { main_key := some pkg_psp_key, ps3_key := some pkg_ps3_key }
  else if key_type = 2 then
    { main_key := some (ecb pkg_vita_2 iv), ps3_key := none }
  else if key_type = 3 then
    { main_key := some (ecb pkg_vita_3 iv), ps3_key := none }
  else if key_type = 4 then
    { main_key := some (ecb pkg_vita_4 iv), ps3_key := none }
  else
    { main_key := none, ps3_key := none }

/-! ## Title sanitization (`parse_sfo_content`, lines 84 to 106) -/

/-- The characters of the literal given to `strchr` on line 88:
`<`, `>`, `"`, `/`, `\`, `|`, `?`, `*`. -/
def reserved : List Nat := [60, 62, 34, 47, 92, 124, 63, 42]

/-- The test of line 88 on the byte `c`. With `char` signed or unsigned,
`*value >= 32 && *value < 127` holds exactly for the bytes 32 to 126. -/
def keeps (c : Nat) : Bool :=
  (decide (32 ≤ c) && decide (c < 127) && !(reserved.contains c)) || decide (128 ≤ c)

/-- The loop of lines 86 to 105. The first argument is the memory from `value`
on, `i` and `max` are the loop variables; the result is the characters written
through `title`, before the terminating NUL of line 106. The condition
`i<max && *value` reads `*value` only when `i < max`. -/
def title_loop : List Nat → Nat → Nat → Except Fault (List Nat)
  | [], i, max => if i < max then .error .undefined_access else .ok []
  | c :: rest, i, max =>
    if i < max ∧ c ≠ 0 then
      if keeps c then
        if c = 58 then
          (fun t => 32 :: 45 :: t) <$> title_loop rest (i + 1) (max - 1)
        else
          (fun t => c :: t) <$> title_loop rest (i + 1) max
      else if c = 10 then
        (fun t => 32 :: t) <$> title_loop rest (i + 1) max
      else
        title_loop rest (i + 1) max
    else
      .ok []

/-- Title sanitization of a NUL-terminated string `s`: the loop of lines 84 to
106 started with `i = 0` and `max = 255` on the bytes of `s` followed by NUL. -/
def sanitize_title (s : List Nat) : Except Fault (List Nat) :=
  title_loop (s ++ [0]) 0 255

/-! ## The metadata parser (`parse_sfo_content`, lines 24 to 167) -/

/-- The result of `strcmp(p, lit) == 0` for a literal `lit` without NUL, where
the first argument is the memory from `p` on: bytes are compared until the first
difference, and `p` matches when the literal is followed by NUL. -/
def strcmp_eq : List Nat → List Nat → Except Fault Bool
  | [], _ => .error .undefined_access
  | c :: _, [] => .ok (decide (c = 0))
  | c :: rest, l :: lit => if c = l then strcmp_eq rest lit else .ok false

/-- The literal `TITLE`. -/
def key_TITLE : List Nat := [84, 73, 84, 76, 69]

/-- The literal `STITLE`. -/
def key_STITLE : List Nat := [83, 84, 73, 84, 76, 69]

/-- The literal `CONTENT_ID`. -/
def key_CONTENT_ID : List Nat := [67, 79, 78, 84, 69, 78, 84, 95, 73, 68]

/-- The literal `CATEGORY`. -/
def key_CATEGORY : List Nat := [67, 65, 84, 69, 71, 79, 82, 89]

/-- The literal `PSP2_DISP_VER`. -/
def key_PSP2_DISP_VER : List Nat := [80, 83, 80, 50, 95, 68, 73, 83, 80, 95, 86, 69, 82]

/-- The literal `APP_VER`. -/
def key_APP_VER : List Nat := [65, 80, 80, 95, 86, 69, 82]

/-- The literal `gp`. -/
def lit_gp : List Nat := [103, 112]

/-- The five index variables of lines 36 to 40. -/
structure SfoIndex where
  /-- `title_index`. -/
  title : Int
  /-- `content_index`. -/
  content : Int
  /-- `category_index`. -/
  category : Int
  /-- `minver_index`. -/
  minver : Int
  /-- `pkgver_index`. -/
  pkgver : Int
  deriving DecidableEq, Repr

/-- The values of lines 36 to 40: every index starts as -1. -/
def SfoIndex.init : SfoIndex :=
  { title := -1, content := -1, category := -1, minver := -1, pkgver := -1 }

/-- The conversion `(int)i` of a `uint32_t`. -/
def int_cast (i : Nat) : Int :=
  if i < 2 ^ 31 then (i : Int) else (i : Int) - 2 ^ 32

/-- One iteration of the loop of lines 41 to 76, for the loop variable `i`.
`i * 16 + 20 + 2` and `i * 16` are `uint32_t` values; in `sfo + i * 16 + 20`
and in the key pointer `sfo + keys + get16le(...)` the summands are added to
the pointer one after the other, which does not wrap. -/
def scan_entry (sfo : List Nat) (sfo_size keys i : Nat) (idx : SfoIndex) :
    Except Fault SfoIndex :=
  if (i * 16 + 20 + 2) % 2 ^ 32 > sfo_size then
    .error .sfo_too_small
  else do
    let k ← get16le sfo (i * 16 % 2 ^ 32 + 20)
    let key := sfo.drop (keys + k)
    if (← strcmp_eq key key_TITLE) then
      if idx.title < 0 then
        pure { idx with title := int_cast i }
      else
        pure idx
    else if (← strcmp_eq key key_STITLE) then
      pure { idx with title := int_cast i }
    else if (← strcmp_eq key key_CONTENT_ID) then
      pure { idx with content := int_cast i }
    else if (← strcmp_eq key key_CATEGORY) then
      pure { idx with category := int_cast i }
    else if (← strcmp_eq key key_PSP2_DISP_VER) then
      pure { idx with minver := int_cast i }
    else if (← strcmp_eq key key_APP_VER) then
      pure { idx with pkgver := int_cast i }
    else
      pure idx

/-- The loop of lines 41 to 76: `n` iterations are left and the loop variable is
`i`. The whole loop is `scan_loop sfo sfo_size keys count 0 SfoIndex.init`. -/
def scan_loop (sfo : List Nat) (sfo_size keys : Nat) : Nat → Nat → SfoIndex → Except Fault SfoIndex
  | 0, _, idx => .ok idx
  | n + 1, i, idx => do
    let idx1 ← scan_entry sfo sfo_size keys i idx
    scan_loop sfo sfo_size keys n (i + 1) idx1

/-- The pointer `sfo + values + get32le(sfo + index * 16 + 20 + 12)` of lines
83, 111, 121, 135 and 156, as an offset into `sfo`. -/
def value_offset (sfo : List Nat) (values : Nat) (index : Int) : Except Fault Nat := do
  let d ← get32le sfo (index * 16 + 20 + 12).toNat
  pure (values + d)

/-- The copy loop `while (*value) *dst++ = *value++` of lines 112 to 115, 140
to 143 and 161 to 164: the bytes before the first NUL of the memory from
`value` on. -/
def copy_string : List Nat → Except Fault (List Nat)
  | [] => .error .undefined_access
  | c :: rest => if c = 0 then .ok [] else (fun t => c :: t) <$> copy_string rest

/-- The size of the array `uint8_t sfo[16 * 1024]` that both callers of
`parse_sfo_content` hand to it (lines 171 and 217). -/
def sfo_capacity : Nat := 16 * 1024

/-- The category block, lines 121 to 130, for the value at offset `off`: the
scan `while (*value++)` leaves `value` one past the NUL of the category, line
125 stores a NUL there (into the `sfo` buffer), and the category is compared
with `gp`. The result is the buffer after the store and whether `*patch = 1`
was executed. `sfo` holds the bytes of the array that were read from the file;
when the NUL of the category is the last of them, the store lands on the next
byte of the array, which is determined from then on, unless the array ends
there. -/
def category_block (sfo : List Nat) (off : Nat) : Except Fault (List Nat × Bool) := do
  let s ← copy_string (sfo.drop off)
  let w := off + s.length + 1
  if w < sfo.length then
    let sfo1 := sfo.set w 0
    let gp ← strcmp_eq (sfo1.drop off) lit_gp
    pure (sfo1, gp)
  else if w = sfo.length ∧ w < sfo_capacity then
    let sfo1 := sfo ++ [0]
    let gp ← strcmp_eq (sfo1.drop off) lit_gp
    pure (sfo1, gp)
  else
    throw .undefined_access

/-- The minimum-version block, lines 135 to 151, on the memory from `value` on:
the string written to `min_version`. When nothing was copied, line 144 reads
`min_version[-1]`, a byte before the caller's buffer. -/
def min_version_block (mem : List Nat) : Except Fault (List Nat) :=
  match mem with
  | [] => .error .undefined_access
  | c :: rest => do
    let s ← copy_string (if c = 48 then rest else c :: rest)
    match s.getLast? with
    | none => throw .undefined_access
    | some l => if l = 48 then pure s.dropLast else pure s

/-- The package-version block, lines 156 to 165, on the memory from `value` on:
the string written to `pkg_version`. -/
def pkg_version_block (mem : List Nat) : Except Fault (List Nat) :=
  match mem with
  | [] => .error .undefined_access
  | c :: rest => copy_string (if c = 48 then rest else c :: rest)

/-- What a call of `parse_sfo_content` leaves behind. An output that was not
written is `none`; `patch` tells whether `*patch = 1` was executed. The strings
are the bytes written before the terminating NUL; `parse_sfo_content` receives
pointers, and whether the strings fit the arrays behind them is decided where
the arrays are declared, in `main` (see `main_metadata`). -/
structure SfoOut where
  /-- The string written to `title`. -/
  title : List Nat
  /-- The string written to `content`, if any. -/
  content : Option (List Nat)
  /-- Whether `*patch = 1` was executed. -/
  patch : Bool
  /-- The string written to `min_version`, if any. -/
  min_version : Option (List Nat)
  /-- The string written to `pkg_version`, if any. -/
  pkg_version : Option (List Nat)
  /-- The `sfo` buffer after the call (line 125 stores into it). -/
  sfo : List Nat
  deriving DecidableEq, Repr

/-- Lines 27 to 81 of `parse_sfo_content`: the signature check, the three
header words, the scan of the entry table and the test for a title. The result
is the local `values` and the index variables. -/
def sfo_scan (sfo : List Nat) (sfo_size : Nat) : Except Fault (Nat × SfoIndex) := do
  let sig ← get32le sfo 0
  if sig ≠ 0x46535000 then
    throw .sfo_signature
  else
    let keys ← get32le sfo 8
    let values ← get32le sfo 12
    let count ← get32le sfo 16
    let idx ← scan_loop sfo sfo_size keys count 0 SfoIndex.init
    if idx.title < 0 then
      throw .no_title
    else
      pure (values, idx)

/-- The NUL-terminated string of entry `index` in the buffer `mem`: the bytes
the copy loops of `parse_sfo_content` read for that entry. -/
def sfo_value (mem : List Nat) (values : Nat) (index : Int) : Except Fault (List Nat) := do
  let off ← value_offset mem values index
  copy_string (mem.drop off)

/-- Lines 83 to 106 of `parse_sfo_content`: the title is read from the entry
`title_index` and sanitized. -/
def title_step (sfo : List Nat) (values : Nat) (idx : SfoIndex) : Except Fault (List Nat) := do
  let off ← value_offset sfo values idx.title
  title_loop (sfo.drop off) 0 255

/-- Lines 108 to 117 of `parse_sfo_content`; `content` tells whether the pointer
`content` is non-NULL. -/
def content_step (sfo : List Nat) (values : Nat) (idx : SfoIndex) (content : Bool) :
    Except Fault (Option (List Nat)) :=
  if 0 < idx.content ∧ content = true then
    some <$> sfo_value sfo values idx.content
  else
    pure none

/-- Lines 119 to 131 of `parse_sfo_content`; `patch` tells whether the pointer
`patch` is non-NULL. The result is the buffer afterwards and whether
`*patch = 1` was executed. -/
def category_step (sfo : List Nat) (values : Nat) (idx : SfoIndex) (patch : Bool) :
    Except Fault (List Nat × Bool) :=
  if 0 < idx.category ∧ patch = true then do
    let off ← value_offset sfo values idx.category
    category_block sfo off
  else
    pure (sfo, false)

/-- Lines 133 to 152 of `parse_sfo_content`; `min_version` tells whether the
pointer `min_version` is non-NULL. -/
def min_version_step (sfo : List Nat) (values : Nat) (idx : SfoIndex) (min_version : Bool) :
    Except Fault (Option (List Nat)) :=
  if 0 < idx.minver ∧ min_version = true then do
    let off ← value_offset sfo values idx.minver
    some <$> min_version_block (sfo.drop off)
  else
    pure none

/-- Lines 154 to 166 of `parse_sfo_content`; `pkg_version` tells whether the
pointer `pkg_version` is non-NULL. -/
def pkg_version_step (sfo : List Nat) (values : Nat) (idx : SfoIndex) (pkg_version : Bool) :
    Except Fault (Option (List Nat)) :=
  if 0 < idx.pkgver ∧ pkg_version = true then do
    let off ← value_offset sfo values idx.pkgver
    some <$> pkg_version_block (sfo.drop off)
  else
    pure none

/-- Lines 83 to 166 of `parse_sfo_content`: the five outputs are produced from
the index variables, in the order title, content id, category, minimum version,
package version; the two version strings are read from the buffer as the
category block left it. -/
def sfo_extract (sfo : List Nat) (values : Nat) (idx : SfoIndex)
    (patch content min_version pkg_version : Bool) : Except Fault SfoOut := do
  let title ← title_step sfo values idx
  let content_out ← content_step sfo values idx content
  let cat ← category_step sfo values idx patch
  let min_out ← min_version_step cat.1 values idx min_version
  let pkg_out ← pkg_version_step cat.1 values idx pkg_version
  pure { title := title, content := content_out, patch := cat.2,
         min_version := min_out, pkg_version := pkg_out, sfo := cat.1 }

/-- The function `parse_sfo_content`. `sfo` is the buffer the pointer refers
to; the arguments `patch`, `content`, `min_version` and `pkg_version` tell
whether the corresponding pointer is non-NULL. -/
def parse_sfo_content (sfo : List Nat) (sfo_size : Nat)
    (patch content min_version pkg_version : Bool) : Except Fault SfoOut := do
  let (values, idx) ← sfo_scan sfo sfo_size
  sfo_extract sfo values idx patch content min_version pkg_version

/-- Whether entry `i` of the blob carries the key `lit`: the key offset of the
entry can be read and the comparison of the key with `lit` succeeds. -/
def entry_has_key (sfo : List Nat) (keys i : Nat) (lit : List Nat) : Bool :=
  match get16le sfo (i * 16 % 2 ^ 32 + 20) with
  | .ok k => decide (strcmp_eq (sfo.drop (keys + k)) lit = .ok true)
  | .error _ => false

/-- Spec side of the version formatting: one leading `0` removed if present. -/
def strip_leading_zero : List Nat → List Nat
  | [] => []
  | c :: r => if c = 48 then r else c :: r

/-- Spec side of the version formatting: one trailing `0` removed if present. -/
def strip_trailing_zero (v : List Nat) : List Nat :=
  if v.getLast? = some 48 then v.dropLast else v

/-- The entry table of a metadata blob for the given (key, value) pairs: per
entry the key offset, a format word, the length fields and the value offset.
`kpos` and `vpos` are the running offsets into the key and value tables. -/
def sfo_entries : List (List Nat × List Nat) → Nat → Nat → List Nat
  | [], _, _ => []
  | (k, v) :: rest, kpos, vpos =>
    le16 kpos ++ le16 0x0204 ++ le32 (v.length + 1) ++ le32 (v.length + 2) ++ le32 vpos
      ++ sfo_entries rest (kpos + k.length + 1) (vpos + v.length + 2)

/-- The entry table of a metadata blob with packed values: as `sfo_entries`,
each value taking its length plus one byte for the NUL. -/
def sfo_entries_packed : List (List Nat × List Nat) → Nat → Nat → List Nat
  | [], _, _ => []
  | (k, v) :: rest, kpos, vpos =>
    le16 kpos ++ le16 0x0204 ++ le32 (v.length + 1) ++ le32 (v.length + 1) ++ le32 vpos
      ++ sfo_entries_packed rest (kpos + k.length + 1) (vpos + v.length + 1)

/-- A well-formed metadata blob holding the given (key, value) pairs in order:
the 20-byte header, the entry table, the NUL-terminated keys, and the values,
each followed by its NUL and one byte of zero padding. -/
def make_sfo (entries : List (List Nat × List Nat)) : List Nat :=
  let key_table := (entries.map (fun e => e.1 ++ [0])).flatten
  let value_table := (entries.map (fun e => e.2 ++ [0, 0])).flatten
  let keys := 20 + 16 * entries.length
  let values := keys + key_table.length
  le32 0x46535000 ++ le32 0x0101 ++ le32 keys ++ le32 values ++ le32 entries.length
    ++ sfo_entries entries 0 0 ++ key_table ++ value_table

/-! ## Reading the metadata (`parse_sfo`, `find_psp_sfo`; `main`, lines 336 and 368 to 395) -/

/-- Modelled from the spec: `sys_read` of the byte I/O collaborator (not in the
source tree), the positioned read of `size` bytes at `offset`. A read that
leaves the file is a failure of the collaborator. -/
def sys_read (pkg : List Nat) (offset size : Nat) : Except Fault (List Nat) :=
  if offset + size ≤ pkg.length then
    .ok ((pkg.drop offset).take size)
  else
    .error .collaborator

/-- The function `parse_sfo`, lines 169 to 183. The buffer `sfo` of 16 KiB is
uninitialised beyond the `sfo_size` bytes read; the parser is given the bytes
read alone, so that every read beyond them is `undefined_access` (the store of
line 125 may land on the first byte beyond them, see `category_block`). -/
def parse_sfo (pkg : List Nat) (sfo_offset sfo_size : Nat) : Except Fault SfoOut :=
  if sfo_size < 16 then
    .error .sfo_too_small
  else if sfo_size > 16 * 1024 then
    .error .sfo_too_big
  else do
    let sfo ← sys_read pkg sfo_offset sfo_size
    parse_sfo_content sfo sfo_size true true true true

/-- The use of a key by a cipher call: a key that was never initialised has no
determined value. -/
def use_key (key : Option (List Nat)) : Except Fault (List Nat) :=
  match key with
  | some k => .ok k
  | none => .error .undefined_access

/-- The literal `PARAM.SFO`. -/
def lit_PARAM_SFO : List Nat := [80, 65, 82, 65, 77, 46, 83, 70, 79]

/-- The function `find_psp_sfo`, lines 185 to 235: `n` iterations are left and
the loop variable is `item_index`. `ctr k iv c buf` stands for the external
`aes128_ctr_xor` of `buf` at block counter `c`; `zip_max_filename` is the
constant `ZIP_MAX_FILENAME` of the archive writer, the size of the array
`name`. The result is the title written, if an entry `PARAM.SFO` was found.
`item_index * 32` is a `uint32_t` product, the offsets are `uint64_t` sums. -/
def find_psp_sfo (ctr : List Nat → List Nat → Nat → List Nat → List Nat)
    (key ps3_key : Option (List Nat)) (iv pkg : List Nat)
    (pkg_size enc_offset items_offset zip_max_filename : Nat) :
    Nat → Nat → Except Fault (Option (List Nat))
  | 0, _ => .ok none
  | n + 1, item_index => do
    let item_offset := (items_offset + item_index * 32 % 2 ^ 32) % 2 ^ 64
    let raw ← sys_read pkg ((enc_offset + item_offset) % 2 ^ 64) 32
    let k ← use_key key
    let it := read_item (ctr k iv (item_offset / 16) raw)
    assert_item it
    check_item pkg_size enc_offset it
    let raw_name ← sys_read pkg ((enc_offset + it.name_offset) % 2 ^ 64) it.name_size
    let item_key ← use_key (if it.psp_type = 0x90 then key else ps3_key)
    let name := ctr item_key iv (it.name_offset / 16) raw_name
    if zip_max_filename ≤ it.name_size then
      throw .undefined_access
    else if (← strcmp_eq (name ++ [0]) lit_PARAM_SFO) then
      if it.data_size < 16 then
        throw .sfo_too_small
      else if it.data_size > 16 * 1024 then
        throw .sfo_too_big
      else do
        let raw_sfo ← sys_read pkg ((enc_offset + it.data_offset) % 2 ^ 64) it.data_size
        let sfo := ctr item_key iv (it.data_offset / 16) raw_sfo
        let out ← parse_sfo_content sfo it.data_size false false false false
        pure (some out.title)
    else
      find_psp_sfo ctr key ps3_key iv pkg pkg_size enc_offset items_offset zip_max_filename
        n (item_index + 1)

/-- The result of `strncmp(a, b, n) != 0` on the memory from `a` on and from `b`
on: at most `n` bytes are compared, and the comparison stops at the first
difference or after a NUL common to both. -/
def strncmp_ne : List Nat → List Nat → Nat → Except Fault Bool
  | _, _, 0 => .ok false
  | [], _, _ + 1 => .error .undefined_access
  | _ :: _, [], _ + 1 => .error .undefined_access
  | a :: as, b :: bs, n + 1 =>
    if a ≠ b then .ok true
    else if a = 0 then .ok false
    else strncmp_ne as bs n

/-- Lines 387 to 394 of `main`. `argv2` is the license token when `argc == 3`;
`zrif_decode` stands for the external decoder, which fills the 512 bytes of
`rif` or ends the run; `content` is the string `parse_sfo` wrote to the buffer
`content`, if it wrote one. The result is the decoded `rif`, if one was decoded. -/
def license_check (zrif_decode : List Nat → Except Fault (List Nat))
    (argv2 : Option (List Nat)) (patch : Bool) (content : Option (List Nat)) :
    Except Fault (Option (List Nat)) :=
  match argv2 with
  | some token =>
    if patch = false then do
      let rif ← zrif_decode token
      match content with
      | none => throw .undefined_access
      | some c =>
        if (← strncmp_ne (rif.drop 0x10) (c ++ [0]) 0x30) then
          throw .zrif_mismatch
        else
          pure (some rif)
    else
      pure none
  | none => pure none

/-- Line 336 of `main`: the PSX, PSP and PSPMini content types. -/
def is_psp (content_type : Nat) : Bool :=
  content_type = 6 || content_type = 7 || content_type = 0xf

/-- The buffers `main` holds after line 395. A buffer nothing was written to
is `none`. -/
structure Metadata where
  /-- The buffer `title`. -/
  title : Option (List Nat)
  /-- The buffer `content`. -/
  content : Option (List Nat)
  /-- The variable `patch`. -/
  patch : Bool
  /-- The buffer `min_version`. -/
  min_version : Option (List Nat)
  /-- The buffer `pkg_version`. -/
  pkg_version : Option (List Nat)
  /-- The buffer `rif`. -/
  rif : Option (List Nat)
  deriving DecidableEq, Repr

/-- Whether a string the parser wrote, with its terminating NUL, lies inside an
array of `cap` bytes. An output that was not written takes no room. -/
def fits (cap : Nat) (s : Option (List Nat)) : Bool :=
  match s with
  | some t => decide (t.length < cap)
  | none => true

/-- The four arrays `content`, `title`, `min_version` and `pkg_version` of
`main` have 256 bytes each (lines 368 to 371): whether the strings the parser
wrote lie inside them. -/
def buffers_hold (title content min_version pkg_version : Option (List Nat)) : Bool :=
  fits 256 title && fits 256 content && fits 256 min_version && fits 256 pkg_version

/-- Lines 365 to 395 of `main`: the metadata is read through `find_psp_sfo` for
the PSP family and through `parse_sfo` otherwise, and in the second case the
license token, if any, is decoded and compared. `keys` are the derived keys,
`hdr` the header fields, `content_type`, `sfo_offset`, `sfo_size` and
`items_offset` the values found by the scan of the metadata blocks. The parser
writes through pointers into the arrays of lines 368 to 371 without a bound: a
string that does not fit its array was written past the end of the array. -/
def main_metadata (ctr : List Nat → List Nat → Nat → List Nat → List Nat)
    (zrif_decode : List Nat → Except Fault (List Nat)) (zip_max_filename : Nat)
    (keys : Keys) (pkg : List Nat) (hdr : PkgHeader)
    (content_type sfo_offset sfo_size items_offset : Nat) (argv2 : Option (List Nat)) :
    Except Fault Metadata :=
  if is_psp content_type = true then do
    let title ← find_psp_sfo ctr keys.main_key keys.ps3_key hdr.iv pkg pkg.length
      hdr.enc_offset items_offset zip_max_filename hdr.item_count 0
    if buffers_hold title none none none = false then
      throw .undefined_access
    else
      pure { title := title, content := none, patch := false, min_version := none,
             pkg_version := none, rif := none }
  else do
    let out ← parse_sfo pkg sfo_offset sfo_size
    if buffers_hold (some out.title) out.content out.min_version out.pkg_version = false then
      throw .undefined_access
    else do
      let rif ← license_check zrif_decode argv2 out.patch out.content
      pure { title := some out.title, content := out.content, patch := out.patch,
             min_version := out.min_version, pkg_version := out.pkg_version, rif := rif }

/-- Spec side of the license comparison: the characters of the NUL-terminated
string at the front of a memory, at most `n` of them. -/
def c_string_chars : List Nat → Nat → List Nat
  | _, 0 => []
  | [], _ + 1 => []
  | x :: xs, n + 1 => if x = 0 then [] else x :: c_string_chars xs n

/-! ## The metadata blocks (`main`, lines 304 to 334) -/

/-- The locals of lines 304 to 308, filled by the scan of the metadata blocks. -/
structure MetaBlocks where
  /-- `uint32_t content_type`. -/
  content_type : Nat
  /-- `uint32_t sfo_offset`. -/
  sfo_offset : Nat
  /-- `uint32_t sfo_size`. -/
  sfo_size : Nat
  /-- `uint32_t items_offset`. -/
  items_offset : Nat
  /-- `uint32_t items_size`. -/
  items_size : Nat
  deriving DecidableEq, Repr

/-- The values of lines 304 to 308: every local starts as 0. -/
def MetaBlocks.init : MetaBlocks :=
  { content_type := 0, sfo_offset := 0, sfo_size := 0, items_offset := 0, items_size := 0 }

/-- Lines 315 to 331 of `main`: the effect of one 16-byte block on the locals. -/
def meta_block (block : List Nat) (b : MetaBlocks) : MetaBlocks :=
  if get32be block 0 = 2 then
    { b with content_type := get32be block 8 }
  else if get32be block 0 = 13 then
    { b with items_offset := get32be block 8, items_size := get32be block 12 }
  else if get32be block 0 = 14 then
    { b with sfo_offset := get32be block 8, sfo_size := get32be block 12 }
  else
    b

/-- Line 333 of `main`: `meta_offset += 2 * sizeof(uint32_t) + size`, a
`uint64_t` sum, where `size` is the second word of the block just read. -/
def meta_next (meta_offset : Nat) (block : List Nat) : Nat :=
  (meta_offset + (2 * 4 + get32be block 4)) % 2 ^ 64

/-- The loop of lines 310 to 334: `n` iterations are left and the cursor is
`meta_offset`. The whole loop is
`scan_meta pkg hdr.meta_count hdr.meta_offset MetaBlocks.init`. -/
def scan_meta (pkg : List Nat) : Nat → Nat → MetaBlocks → Except Fault MetaBlocks
  | 0, _, b => .ok b
  | n + 1, meta_offset, b => do
    let block ← sys_read pkg meta_offset 16
    scan_meta pkg n (meta_next meta_offset block) (meta_block block b)

/-- The result of `memcmp(p, lit, n) == 0` for a literal `lit` of `n` bytes,
where the first argument is the memory from `p` on, as far as its content is
determined: the bytes are compared one after the other, and the result is
determined by the first difference. -/
def memcmp_eq : List Nat → List Nat → Except Fault Bool
  | _, [] => .ok true
  | [], _ :: _ => .error .undefined_access
  | m :: ms, l :: lit => if m = l then memcmp_eq ms lit else .ok false

/-- A chain `memcmp(id, a, 4) == 0 || memcmp(id, b, 4) == 0 || ...`: the
comparisons are made in order and stop at the first that succeeds. -/
def memcmp_any (id : List Nat) : List (List Nat) → Except Fault Bool
  | [] => .ok false
  | lit :: lits => do
    if (← memcmp_eq id lit) then pure true else memcmp_any id lits

/-- The literal `USA`. -/
def region_USA : List Nat := [85, 83, 65]

/-- The literal `EUR`. -/
def region_EUR : List Nat := [69, 85, 82]

/-- The literal `JPN`. -/
def region_JPN : List Nat := [74, 80, 78]

/-- The literal `ASA`. -/
def region_ASA : List Nat := [65, 83, 65]

/-- The literal `unknown region`. -/
def region_unknown : List Nat :=
  [117, 110, 107, 110, 111, 119, 110, 32, 114, 101, 103, 105, 111, 110]

/-- The literals `PCSE` and `PCSA`. -/
def ids_USA : List (List Nat) := [[80, 67, 83, 69], [80, 67, 83, 65]]

/-- The literals `PCSF` and `PCSB`. -/
def ids_EUR : List (List Nat) := [[80, 67, 83, 70], [80, 67, 83, 66]]

/-- The literals `PCSC`, `VCJS`, `PCSG`, `VLJS` and `VLJM`. -/
def ids_JPN : List (List Nat) :=
  [[80, 67, 83, 67], [86, 67, 74, 83], [80, 67, 83, 71], [86, 76, 74, 83], [86, 76, 74, 77]]

/-- The literals `VCAS`, `PCSH`, `VLAS` and `PCSD`. -/
def ids_ASA : List (List Nat) :=
  [[86, 67, 65, 83], [80, 67, 83, 72], [86, 76, 65, 83], [80, 67, 83, 68]]

/-- The function `get_region`, lines 237 to 262; the argument is the memory
from `id` on. -/
def get_region (id : List Nat) : Except Fault (List Nat) := do
  if (← memcmp_any id ids_USA) then
    pure region_USA
  else if (← memcmp_any id ids_EUR) then
    pure region_EUR
  else if (← memcmp_any id ids_JPN) then
    pure region_JPN
  else if (← memcmp_any id ids_ASA) then
    pure region_ASA
  else
    pure region_unknown

/-! ## The archive name and the scaffold (`main`, lines 397 to 472) -/

/-- What `snprintf(buf, n, ...)` leaves in `buf` when the formatted text is
`text`: at most `n - 1` characters (followed by NUL). -/
def snprintf_cut (n : Nat) (text : List Nat) : List Nat :=
  text.take (n - 1)

/-- The read of a string buffer by `%s`: a buffer nothing was written to has no
determined content. -/
def use_buffer (buf : Option (List Nat)) : Except Fault (List Nat) :=
  match buf with
  | some s => .ok s
  | none => .error .undefined_access

/-- The string at `content + k` (`id` is `content + 7` on line 373, `id2` is
`id + 13` on line 374), where `content` holds a NUL-terminated string: beyond
the terminating NUL the buffer is uninitialised. -/
def content_from (content : Option (List Nat)) (k : Nat) : Except Fault (List Nat) := do
  let c ← use_buffer content
  if k ≤ c.length then pure (c.drop k) else throw .undefined_access

/-- Line 337 of `main`. -/
def is_dlc (content_type : Nat) : Bool :=
  content_type = 0x16

/-- Line 400 of `main`: `PSX`, `PSP` or `PSPMini`. -/
def type_str (content_type : Nat) : List Nat :=
  if content_type = 6 then [80, 83, 88]
  else if content_type = 7 then [80, 83, 80]
  else [80, 83, 80, 77, 105, 110, 105]

/-- Lines 397 to 418 of `main`: the name of the archive, in the buffer `path` of
1024 bytes. The formats are `%s [%.9s] [%s].zip`, `%s [%.9s] [%s] [DLC-%s].zip`
and `%s [%.9s] [%s] [PATCH] [v%s].zip`; `get_region` is given the string at
`id` with its terminating NUL. -/
def archive_name (pkg_header : List Nat) (content_type : Nat) (md : Metadata) :
    Except Fault (List Nat) :=
  if is_psp content_type = true then do
    let title ← use_buffer md.title
    pure (snprintf_cut 1024 (title ++ [32, 91] ++ c_string_chars (pkg_header.drop 0x37) 9
      ++ [93, 32, 91] ++ type_str content_type ++ [93, 46, 122, 105, 112]))
  else if is_dlc content_type = true then do
    let title ← use_buffer md.title
    let id ← content_from md.content 7
    let region ← get_region (id ++ [0])
    let id2 ← content_from md.content 20
    pure (snprintf_cut 1024 (title ++ [32, 91] ++ id.take 9 ++ [93, 32, 91] ++ region
      ++ [93, 32, 91, 68, 76, 67, 45] ++ id2 ++ [93, 46, 122, 105, 112]))
  else if md.patch = true then do
    let title ← use_buffer md.title
    let id ← content_from md.content 7
    let region ← get_region (id ++ [0])
    let pkg_version ← use_buffer md.pkg_version
    pure (snprintf_cut 1024 (title ++ [32, 91] ++ id.take 9 ++ [93, 32, 91] ++ region
      ++ [93, 32, 91, 80, 65, 84, 67, 72, 93, 32, 91, 118] ++ pkg_version
      ++ [93, 46, 122, 105, 112]))
  else do
    let title ← use_buffer md.title
    let id ← content_from md.content 7
    let region ← get_region (id ++ [0])
    pure (snprintf_cut 1024 (title ++ [32, 91] ++ id.take 9 ++ [93, 32, 91] ++ region
      ++ [93, 46, 122, 105, 112]))

/-- An entry of the output archive, as the calls of the archive writer describe
it: `zip_add_folder(path)`, or `zip_begin_file(path)` followed by one
`zip_write_file` per chunk and `zip_end_file`. -/
inductive ZipEntry where
  /-- A folder entry with its path. -/
  | folder (path : List Nat)
  /-- A file entry with its path and the chunks written to it, in order. -/
  | file (path : List Nat) (chunks : List (List Nat))
  deriving DecidableEq, Repr

/-- Lines 425 to 454 of `main`: the folders added before the items. The
literals are `addcont/`, `patch/` and `app/`. -/
def scaffold (content_type : Nat) (md : Metadata) : Except Fault (List ZipEntry) :=
  if is_psp content_type = true then
    pure []
  else if is_dlc content_type = true then do
    let id ← content_from md.content 7
    let id2 ← content_from md.content 20
    pure [.folder (snprintf_cut 1024 [97, 100, 100, 99, 111, 110, 116, 47]),
      .folder (snprintf_cut 1024 ([97, 100, 100, 99, 111, 110, 116, 47] ++ id.take 9 ++ [47])),
      .folder (snprintf_cut 1024
        ([97, 100, 100, 99, 111, 110, 116, 47] ++ id.take 9 ++ [47] ++ id2 ++ [47]))]
  else if md.patch = true then do
    let id ← content_from md.content 7
    pure [.folder (snprintf_cut 1024 [112, 97, 116, 99, 104, 47]),
      .folder (snprintf_cut 1024 ([112, 97, 116, 99, 104, 47] ++ id.take 9 ++ [47]))]
  else do
    let id ← content_from md.content 7
    pure [.folder (snprintf_cut 1024 [97, 112, 112, 47]),
      .folder (snprintf_cut 1024 ([97, 112, 112, 47] ++ id.take 9 ++ [47]))]

/-- Lines 456 to 472 of `main`: the buffer `root` of 64 bytes. -/
def root_path (content_type : Nat) (md : Metadata) : Except Fault (List Nat) :=
  if is_psp content_type = true then
    pure []
  else if is_dlc content_type = true then do
    let id ← content_from md.content 7
    let id2 ← content_from md.content 20
    pure (snprintf_cut 64 ([97, 100, 100, 99, 111, 110, 116, 47] ++ id.take 9 ++ [47] ++ id2))
  else if md.patch = true then do
    let id ← content_from md.content 7
    pure (snprintf_cut 64 ([112, 97, 116, 99, 104, 47] ++ id.take 9))
  else do
    let id ← content_from md.content 7
    pure (snprintf_cut 64 ([97, 112, 112, 47] ++ id.take 9))

/-! ## The unpack pipeline (`main`, lines 476 to 551) -/

/-- Line 479 of `main`: `items_offset + item_index * 32`. Both operands are
`uint32_t` in `main`, so the sum is a `uint32_t` value, then stored in a
`uint64_t`. -/
def item_offset (items_offset item_index : Nat) : Nat :=
  (items_offset + item_index * 32) % 2 ^ 32

/-- Line 504 of `main`: `psp && psp_type == 0x90 ? &key : &ps3_key`. -/
def item_key_of (psp : Bool) (psp_type : Nat) (keys : Keys) : Option (List Nat) :=
  if psp = true ∧ psp_type = 0x90 then keys.main_key else keys.ps3_key

/-- The literal `sce_sys/package/digs.bin`. -/
def lit_digs_bin : List Nat :=
  [115, 99, 101, 95, 115, 121, 115, 47, 112, 97, 99, 107, 97, 103, 101, 47, 100, 105, 103,
    115, 46, 98, 105, 110]

/-- The literal `sce_sys/package/body.bin`. -/
def lit_body_bin : List Nat :=
  [115, 99, 101, 95, 115, 121, 115, 47, 112, 97, 99, 107, 97, 103, 101, 47, 98, 111, 100,
    121, 46, 98, 105, 110]

/-- The loop of lines 533 to 547 of `main`: at most `n` iterations are made,
`offset` and `data_size` are the loop variables. The result is the chunks given
to `zip_write_file`, in order. The chunk size is
`(uint32_t)min64(data_size, sizeof(buffer))` with a buffer of `1 << 16` bytes. -/
def chunk_loop (ctr : List Nat → List Nat → Nat → List Nat → List Nat)
    (item_key : Option (List Nat)) (iv pkg : List Nat) (enc_offset : Nat) (decrypt : Bool) :
    Nat → Nat → Nat → Except Fault (List (List Nat))
  | 0, _, data_size => if data_size = 0 then .ok [] else .error .no_fuel
  | n + 1, offset, data_size =>
    if data_size = 0 then
      .ok []
    else do
      let size := min data_size (2 ^ 16)
      let raw ← sys_read pkg ((enc_offset + offset) % 2 ^ 64) size
      let buffer ←
        if decrypt = true then do
          let k ← use_key item_key
          pure (ctr k iv (offset / 16) raw)
        else
          pure raw
      let rest ← chunk_loop ctr item_key iv pkg enc_offset decrypt n
        ((offset + size) % 2 ^ 64) (data_size - size)
      pure (buffer :: rest)

/-- Lines 513 to 550 of `main`, for an item record `it` whose name, as a
NUL-terminated string, is `name`: the archive entry added for it. The formats
are `%s/%s/` and `%s/%s`. -/
def emit_item (ctr : List Nat → List Nat → Nat → List Nat → List Nat)
    (zip_max_filename : Nat) (item_key : Option (List Nat)) (iv pkg : List Nat)
    (enc_offset : Nat) (psp : Bool) (root : List Nat) (it : Item) (name : List Nat) :
    Except Fault ZipEntry :=
  if it.flags = 4 ∨ it.flags = 18 then
    pure (.folder (snprintf_cut 1024 (root ++ [47] ++ name ++ [47])))
  else do
    let digs : Bool := !psp && decide (name = lit_digs_bin)
    let name1 := if digs = true then snprintf_cut zip_max_filename lit_body_bin else name
    let chunks ← chunk_loop ctr item_key iv pkg enc_offset (!digs)
      (it.data_size / 2 ^ 16 + 1) it.data_offset it.data_size
    pure (.file (snprintf_cut 1024 (root ++ [47] ++ name1)) chunks)

/-- Lines 478 to 488 of `main`, for the loop variable `item_index`: the item
record is read and decrypted with the primary key. -/
def item_record (ctr : List Nat → List Nat → Nat → List Nat → List Nat) (keys : Keys)
    (iv pkg : List Nat) (enc_offset items_offset item_index : Nat) : Except Fault Item := do
  let off := item_offset items_offset item_index
  let raw ← sys_read pkg ((enc_offset + off) % 2 ^ 64) 32
  let k ← use_key keys.main_key
  pure (read_item (ctr k iv (off / 16) raw))

/-- Lines 504 to 509 of `main`: the name of the item is read and decrypted with
the item key. The array `name` receives the decrypted bytes followed by NUL and
is used as a string from there on: the result is that string. -/
def item_name (ctr : List Nat → List Nat → Nat → List Nat → List Nat) (keys : Keys)
    (iv pkg : List Nat) (enc_offset : Nat) (psp : Bool) (it : Item) :
    Except Fault (List Nat) := do
  let raw_name ← sys_read pkg ((enc_offset + it.name_offset) % 2 ^ 64) it.name_size
  let ik ← use_key (item_key_of psp it.psp_type keys)
  pure (c_string_chars (ctr ik iv (it.name_offset / 16) raw_name) it.name_size)

/-- One iteration of the loop of lines 476 to 551 of `main`, for the loop
variable `item_index`: the archive entry added. -/
def item_step (ctr : List Nat → List Nat → Nat → List Nat → List Nat)
    (zip_max_filename : Nat) (keys : Keys) (iv pkg : List Nat)
    (enc_offset items_offset : Nat) (psp : Bool) (root : List Nat) (item_index : Nat) :
    Except Fault ZipEntry := do
  let it ← item_record ctr keys iv pkg enc_offset items_offset item_index
  assert_item it
  check_item pkg.length enc_offset it
  if zip_max_filename ≤ it.name_size then
    throw .name_too_long
  else do
    let name ← item_name ctr keys iv pkg enc_offset psp it
    emit_item ctr zip_max_filename (item_key_of psp it.psp_type keys) iv pkg enc_offset psp
      root it name

/-- The loop of lines 476 to 551 of `main`: `n` iterations are left and the
loop variable is `item_index`. The result is the entries added, in order. -/
def item_loop (ctr : List Nat → List Nat → Nat → List Nat → List Nat)
    (zip_max_filename : Nat) (keys : Keys) (iv pkg : List Nat)
    (enc_offset items_offset : Nat) (psp : Bool) (root : List Nat) :
    Nat → Nat → Except Fault (List ZipEntry)
  | 0, _ => .ok []
  | n + 1, item_index => do
    let e ← item_step ctr zip_max_filename keys iv pkg enc_offset items_offset psp root
      item_index
    let rest ← item_loop ctr zip_max_filename keys iv pkg enc_offset items_offset psp root
      n (item_index + 1)
    pure (e :: rest)

/-! ## The trailer files (`main`, lines 553 to 610) -/

/-- The loop of lines 561 to 569 of `main`: at most `n` iterations are made,
`head_size` and `head_offset` are the loop variables. -/
def head_loop (pkg : List Nat) : Nat → Nat → Nat → Except Fault (List (List Nat))
  | 0, head_size, _ => if head_size = 0 then .ok [] else .error .no_fuel
  | n + 1, head_size, head_offset =>
    if head_size = 0 then
      .ok []
    else do
      let size := min head_size (2 ^ 16)
      let buffer ← sys_read pkg head_offset size
      let rest ← head_loop pkg n (head_size - size) ((head_offset + size) % 2 ^ 64)
      pure (buffer :: rest)

/-- The loop of lines 580 to 587 of `main`: at most `n` iterations are made and
`tail_offset` is the loop variable. `pkg_size - tail_offset` is a `uint64_t`
difference. -/
def tail_loop (pkg : List Nat) (pkg_size : Nat) : Nat → Nat → Except Fault (List (List Nat))
  | 0, tail_offset => if tail_offset = pkg_size then .ok [] else .error .no_fuel
  | n + 1, tail_offset =>
    if tail_offset = pkg_size then
      .ok []
    else do
      let size := min ((pkg_size + 2 ^ 64 - tail_offset) % 2 ^ 64) (2 ^ 16)
      let buffer ← sys_read pkg tail_offset size
      let rest ← tail_loop pkg pkg_size n ((tail_offset + size) % 2 ^ 64)
      pure (buffer :: rest)

/-- The literal `/sce_sys/package/head.bin`. -/
def lit_head_bin : List Nat :=
  [47, 115, 99, 101, 95, 115, 121, 115, 47, 112, 97, 99, 107, 97, 103, 101, 47, 104, 101, 97,
    100, 46, 98, 105, 110]

/-- The literal `/sce_sys/package/tail.bin`. -/
def lit_tail_bin : List Nat :=
  [47, 115, 99, 101, 95, 115, 121, 115, 47, 112, 97, 99, 107, 97, 103, 101, 47, 116, 97, 105,
    108, 46, 98, 105, 110]

/-- The literal `/sce_sys/package/stat.bin`. -/
def lit_stat_bin : List Nat :=
  [47, 115, 99, 101, 95, 115, 121, 115, 47, 112, 97, 99, 107, 97, 103, 101, 47, 115, 116, 97,
    116, 46, 98, 105, 110]

/-- The literal `/sce_sys/package/work.bin`. -/
def lit_work_bin : List Nat :=
  [47, 115, 99, 101, 95, 115, 121, 115, 47, 112, 97, 99, 107, 97, 103, 101, 47, 119, 111, 114,
    107, 46, 98, 105, 110]

/-- Lines 553 to 610 of `main`: the entries added after the items. `argv2` is
the license token when `argc == 3`, `rif` the buffer `rif`. -/
def trailer_files (pkg : List Nat) (hdr : PkgHeader) (items_size : Nat) (psp patch : Bool)
    (root : List Nat) (argv2 : Option (List Nat)) (rif : Option (List Nat)) :
    Except Fault (List ZipEntry) :=
  if psp = true then
    pure []
  else do
    let head_size := (hdr.enc_offset + items_size) % 2 ^ 64
    let head ← head_loop pkg (head_size / 2 ^ 16 + 1) head_size 0
    let tail ← tail_loop pkg pkg.length (pkg.length / 2 ^ 16 + 1)
      ((hdr.enc_offset + hdr.enc_size) % 2 ^ 64)
    let stat : List Nat := List.replicate 768 0
    let fixed : List ZipEntry :=
      [.file (snprintf_cut 1024 (root ++ lit_head_bin)) head,
        .file (snprintf_cut 1024 (root ++ lit_tail_bin)) tail,
        .file (snprintf_cut 1024 (root ++ lit_stat_bin)) [stat]]
    if patch = false ∧ argv2.isSome = true then do
      let r ← use_buffer rif
      pure (fixed ++ [.file (snprintf_cut 1024 (root ++ lit_work_bin)) [r]])
    else
      pure fixed

/-! ## The whole run (`main`, lines 264 to 620) -/

/-- The archive a run produces: the name given to `zip_create` and the entries
added before `zip_close`, in order. -/
structure Archive where
  /-- The name of the archive file. -/
  name : List Nat
  /-- The entries of the archive. -/
  entries : List ZipEntry
  deriving DecidableEq, Repr

/-- The function `main` for `argv[1]` naming a file with the bytes `pkg` and
`argv2` the license token when `argc == 3`. `ecb`, `ctr`, `zrif_decode` and
`zip_max_filename` stand for the block cipher, the license decoder and the
constant `ZIP_MAX_FILENAME` of the archive writer. -/
def main (ecb : List Nat → List Nat → List Nat)
    (ctr : List Nat → List Nat → Nat → List Nat → List Nat)
    (zrif_decode : List Nat → Except Fault (List Nat)) (zip_max_filename : Nat)
    (pkg : List Nat) (argv2 : Option (List Nat)) : Except Fault Archive := do
  let pkg_header ← sys_read pkg 0 256
  let hdr ← validate_header pkg.length pkg_header
  let blocks ← scan_meta pkg hdr.meta_count hdr.meta_offset MetaBlocks.init
  let keys := derive_keys ecb pkg_header
  let md ← main_metadata ctr zrif_decode zip_max_filename keys pkg hdr blocks.content_type
    blocks.sfo_offset blocks.sfo_size blocks.items_offset argv2
  let name ← archive_name pkg_header blocks.content_type md
  let folders ← scaffold blocks.content_type md
  let root ← root_path blocks.content_type md
  let items ← item_loop ctr zip_max_filename keys hdr.iv pkg hdr.enc_offset
    blocks.items_offset (is_psp blocks.content_type) root hdr.item_count 0
  let trailer ← trailer_files pkg hdr blocks.items_size (is_psp blocks.content_type) md.patch
    root argv2 md.rif
  pure { name := name, entries := folders ++ items ++ trailer }

/-! ## Inputs used in the theorems -/

/-- The string `Demo`. -/
def str_Demo : List Nat := [68, 101, 109, 111]

/-- The string `UP0000-PCSE00001_00-0000000000000000`, a content id. -/
def str_content_id : List Nat :=
  [85, 80, 48, 48, 48, 48, 45, 80, 67, 83, 69, 48, 48, 48, 48, 49, 95, 48, 48, 45, 48, 48, 48,
    48, 48, 48, 48, 48, 48, 48, 48, 48, 48, 48, 48, 48]

/-- A metadata blob whose only entry is a `TITLE` of 254 letters `a` followed by
a colon. -/
def sfo_long_title : List Nat :=
  make_sfo [(key_TITLE, List.replicate 254 97 ++ [58])]

/-- A metadata blob with its five keys in alphabetical order, as the format
stores them: `APP_VER` = `01.00`, `CATEGORY` = `gp`, `CONTENT_ID`,
`PSP2_DISP_VER` = `03.610`, `TITLE` = `Demo`. -/
def sfo_sorted_keys : List Nat :=
  make_sfo [(key_APP_VER, [48, 49, 46, 48, 48]), (key_CATEGORY, lit_gp),
    (key_CONTENT_ID, str_content_id), (key_PSP2_DISP_VER, [48, 51, 46, 54, 49, 48]),
    (key_TITLE, str_Demo)]

/-- A metadata blob with a `TITLE` and two `CONTENT_ID` entries, with the values
`AAA` and `BBB`. -/
def sfo_two_content_ids : List Nat :=
  make_sfo [(key_TITLE, str_Demo), (key_CONTENT_ID, [65, 65, 65]),
    (key_CONTENT_ID, [66, 66, 66])]

/-- A metadata blob with `TITLE` = `Demo`, `APP_VER` = `01.00` and
`PSP2_DISP_VER` = `03.610`. -/
def sfo_versions : List Nat :=
  make_sfo [(key_TITLE, str_Demo), (key_APP_VER, [48, 49, 46, 48, 48]),
    (key_PSP2_DISP_VER, [48, 51, 46, 54, 49, 48])]

/-- A metadata blob holding the given (key, value) pairs in order like
`make_sfo`, with the values packed: each value is followed by its NUL alone. -/
def make_sfo_packed (entries : List (List Nat × List Nat)) : List Nat :=
  let key_table := (entries.map (fun e => e.1 ++ [0])).flatten
  let value_table := (entries.map (fun e => e.2 ++ [0])).flatten
  let keys := 20 + 16 * entries.length
  let values := keys + key_table.length
  le32 0x46535000 ++ le32 0x0101 ++ le32 keys ++ le32 values ++ le32 entries.length
    ++ sfo_entries_packed entries 0 0 ++ key_table ++ value_table

/-- A metadata blob with packed values: `TITLE` = `Demo`, `CATEGORY` = `gp` and
`APP_VER` = `01.00`, so that the value of `APP_VER` starts at the byte that
follows the NUL of the category. -/
def sfo_packed_category : List Nat :=
  make_sfo_packed [(key_TITLE, str_Demo), (key_CATEGORY, lit_gp),
    (key_APP_VER, [48, 49, 46, 48, 48])]

/-- A decoded license blob of 512 bytes whose content id field, at 0x10, holds
`A`, NUL, `B` and zeros. -/
def rif_after_nul : List Nat :=
  List.replicate 16 0 ++ [65, 0, 66] ++ List.replicate 493 0

/-- A stand-in for the block cipher in closed statements: the bytewise XOR of
key and block. -/
def toy_ecb (k b : List Nat) : List Nat :=
  List.zipWith Nat.xor k b

/-- The list `l` followed by zeros up to the length `n` (used to write inputs). -/
def pad_to (n : Nat) (l : List Nat) : List Nat :=
  l ++ List.replicate (n - l.length) 0

/-- A container: the 256-byte header with the given selector, item count,
encrypted-region offset and size; at 256 three metadata blocks (type 2 with
`content_type`, type 13 with `items_offset` and `items_size`, type 14 with the
metadata blob at offset 300); the blob `sfo` at 300; zeros up to `enc_offset`;
then the bytes `enc` of the encrypted region and the bytes `tail`. The declared
total size is the length of the container. -/
def make_pkg (key_type content_type item_count items_offset items_size enc_offset enc_size : Nat)
    (sfo enc tail : List Nat) : List Nat :=
  pad_to enc_offset
      (make_header 256 3 item_count (enc_offset + enc.length + tail.length) enc_offset enc_size
          [] key_type
        ++ be32 2 ++ be32 4 ++ be32 content_type
        ++ be32 13 ++ be32 8 ++ be32 items_offset ++ be32 items_size
        ++ be32 14 ++ be32 8 ++ be32 300 ++ be32 sfo.length
        ++ sfo)
    ++ enc ++ tail

/-- A stand-in for the counter-mode cipher in closed statements: it leaves the
buffer unchanged, so that the containers below hold their items in clear. -/
def plain_ctr (_k _iv : List Nat) (_c : Nat) (buf : List Nat) : List Nat :=
  buf

/-- A license decoder that fails on every token. -/
def no_decode (_token : List Nat) : Except Fault (List Nat) :=
  .error .collaborator

/-- The string `eboot.bin`. -/
def str_eboot : List Nat := [101, 98, 111, 111, 116, 46, 98, 105, 110]

/-- The string `PCSE00001234567`. -/
def str_short_id : List Nat := [80, 67, 83, 69, 48, 48, 48, 48, 49, 50, 51, 52, 53, 54, 55]

/-- An Application container (content type 0x15) of 472 bytes with selector
`key_type`, the title `Demo`, the content id `cid`, and one file item
`eboot.bin` with the five data bytes 1 to 5; the encrypted region starts at 416
and is followed by the three bytes 9, 9, 9. -/
def pkg_app (key_type : Nat) (cid : List Nat) : List Nat :=
  make_pkg key_type 0x15 1 0 32 416 53
    (make_sfo [(key_TITLE, str_Demo), (key_CONTENT_ID, cid)])
    (make_item 32 9 48 5 0 0 ++ pad_to 16 str_eboot ++ [1, 2, 3, 4, 5]) [9, 9, 9]

/-- The container `pkg_app 1 str_content_id` with the size of the item table
declared as 4096 bytes in the type-13 metadata block. -/
def pkg_big_items_size : List Nat :=
  make_pkg 1 0x15 1 0 4096 416 53
    (make_sfo [(key_TITLE, str_Demo), (key_CONTENT_ID, str_content_id)])
    (make_item 32 9 48 5 0 0 ++ pad_to 16 str_eboot ++ [1, 2, 3, 4, 5]) [9, 9, 9]

/-- A metadata blob of 36 bytes with a valid signature, one entry, and the key
table declared at offset 0x10000. -/
def sfo_far_keys : List Nat :=
  le32 0x46535000 ++ le32 0x0101 ++ le32 0x10000 ++ le32 0 ++ le32 1 ++ List.replicate 16 0

/-- An Application container of 448 bytes with selector 1 and one item record,
whose type-13 metadata block declares the item table at offset 16 of the
encrypted region, which starts at 416. -/
def pkg_shifted_items : List Nat :=
  make_pkg 1 0x15 1 16 32 416 32
    (make_sfo [(key_TITLE, str_Demo), (key_CONTENT_ID, str_content_id)])
    (make_item 32 0 0 0 0 4) []

/-- A stand-in for the keystream of the counter-mode cipher in closed
statements: the byte at position `pos` is the sum of the first key byte, the
first byte of the initialization vector and `pos`, modulo 256. -/
def toy_stream (k iv : List Nat) (pos : Nat) : Nat :=
  (k.getD 0 0 + iv.getD 0 0 + pos) % 256

/-! ## Predicates and functions used to state the theorems -/

/-- The characters the title loop may write. -/
def title_char (b : Nat) : Prop :=
  (128 ≤ b ∨ (32 ≤ b ∧ b ≤ 126 ∧ b ∉ reserved)) ∧ b ≠ 58 ∧ b ≠ 10

/-- The effect of one iteration of the loop of lines 41 to 76 on the index
variables, given which keys the entry carries: the chain of comparisons of
`scan_entry` without the memory accesses. -/
def scan_entry_pure (has : List Nat → Bool) (i : Nat) (idx : SfoIndex) : SfoIndex :=
  if has key_TITLE then
    if idx.title < 0 then { idx with title := int_cast i } else idx
  else if has key_STITLE then { idx with title := int_cast i }
  else if has key_CONTENT_ID then { idx with content := int_cast i }
  else if has key_CATEGORY then { idx with category := int_cast i }
  else if has key_PSP2_DISP_VER then { idx with minver := int_cast i }
  else if has key_APP_VER then { idx with pkgver := int_cast i }
  else idx

/-- Spec side of the region resolution: the region of a 4-character prefix. -/
def region_of (p : List Nat) : List Nat :=
  if p ∈ ids_USA then region_USA
  else if p ∈ ids_EUR then region_EUR
  else if p ∈ ids_JPN then region_JPN
  else if p ∈ ids_ASA then region_ASA
  else region_unknown

/-- The path of an archive entry. -/
def ZipEntry.path : ZipEntry → List Nat
  | .folder p => p
  | .file p _ => p

/-- The bytes written to an archive entry: the chunks of a file entry one after
the other, nothing for a folder entry. -/
def ZipEntry.data : ZipEntry → List Nat
  | .folder _ => []
  | .file _ chunks => chunks.flatten

/-- Spec side of the counter mode: byte `j` of the buffer is XORed with the
byte `pos + j` of the keystream `stream`. -/
def xor_stream (stream : Nat → Nat) : Nat → List Nat → List Nat
  | _, [] => []
  | pos, b :: bs => (b ^^^ stream pos) :: xor_stream stream (pos + 1) bs

/-- A stand-in for the counter-mode cipher in closed statements, with the
keystream `toy_stream`. -/
def toy_ctr (k iv : List Nat) (c : Nat) (buf : List Nat) : List Nat :=
  xor_stream (toy_stream k iv) (16 * c) buf

end Pkg2zip

/-! # Theorems -/

namespace Pkg2zip

/-! ## Auxiliary facts -/

theorem map_eq_ok {α β : Type} {f : α → β} {x : Except Fault α} {b : β}
    (h : f <$> x = .ok b) : ∃ a, x = .ok a ∧ b = f a := by
  cases x with
  | error e => cases h
  | ok a =>
    refine ⟨a, rfl, ?_⟩
    have h2 : (Except.ok (f a) : Except Fault β) = .ok b := h
    cases h2
    rfl

theorem keeps_spec {c : Nat} (h : keeps c = true) :
    128 ≤ c ∨ (32 ≤ c ∧ c ≤ 126 ∧ c ∉ reserved) := by
  simp only [keeps, Bool.or_eq_true, Bool.and_eq_true, decide_eq_true_eq,
    Bool.not_eq_true', List.contains_eq_any_beq, List.any_eq_false, beq_iff_eq] at h
  rcases h with ⟨⟨h1, h2⟩, h3⟩ | h
  · right
    refine ⟨h1, by omega, ?_⟩
    intro hm
    exact h3 c hm rfl
  · left
    exact h

theorem title_char_space : title_char 32 := by
  refine ⟨Or.inr ⟨by decide, by decide, by decide⟩, by decide, by decide⟩

theorem title_char_dash : title_char 45 := by
  refine ⟨Or.inr ⟨by decide, by decide, by decide⟩, by decide, by decide⟩

theorem title_loop_chars (mem : List Nat) :
    ∀ (i max : Nat) (t : List Nat), title_loop mem i max = .ok t → ∀ b ∈ t, title_char b := by
  induction mem with
  | nil =>
    intro i max t h b hb
    simp only [title_loop] at h
    split_ifs at h
    cases h
    cases hb
  | cons c rest ih =>
    intro i max t h b hb
    simp only [title_loop] at h
    split_ifs at h with h1 h2 h3 h4
    · obtain ⟨t1, ht1, rfl⟩ := map_eq_ok h
      rcases List.mem_cons.1 hb with rfl | hb
      · exact title_char_space
      rcases List.mem_cons.1 hb with rfl | hb
      · exact title_char_dash
      · exact ih _ _ _ ht1 b hb
    · obtain ⟨t1, ht1, rfl⟩ := map_eq_ok h
      rcases List.mem_cons.1 hb with rfl | hb
      · refine ⟨keeps_spec h2, h3, ?_⟩
        rintro rfl
        simp [keeps, reserved] at h2
      · exact ih _ _ _ ht1 b hb
    · obtain ⟨t1, ht1, rfl⟩ := map_eq_ok h
      rcases List.mem_cons.1 hb with rfl | hb
      · exact title_char_space
      · exact ih _ _ _ ht1 b hb
    · exact ih _ _ _ h b hb
    · cases h
      cases hb

theorem keeps_of_title_char {b : Nat} (h : title_char b) : keeps b = true := by
  obtain ⟨h1, -, -⟩ := h
  simp only [keeps, Bool.or_eq_true, Bool.and_eq_true, decide_eq_true_eq,
    Bool.not_eq_true', List.contains_eq_any_beq, List.any_eq_false, beq_iff_eq]
  rcases h1 with h1 | ⟨h1, h2, h3⟩
  · right
    exact h1
  · left
    refine ⟨⟨h1, by omega⟩, ?_⟩
    intro x hx hxb
    exact h3 (hxb ▸ hx)

theorem title_loop_fixed : ∀ (t : List Nat), (∀ b ∈ t, title_char b) →
    ∀ (i max : Nat), i + t.length ≤ max → title_loop (t ++ [0]) i max = .ok t := by
  intro t
  induction t with
  | nil =>
    intro _ i max _
    simp [title_loop]
  | cons b t ih =>
    intro hall i max hlen
    have hb : title_char b := hall b (List.mem_cons_self _ _)
    have hk := keeps_of_title_char hb
    have hlt : i < max := by
      simp only [List.length_cons] at hlen
      omega
    have hb0 : b ≠ 0 := by
      rcases hb.1 with h | ⟨h, -, -⟩ <;> omega
    have h58 : b ≠ 58 := hb.2.1
    have hrec := ih (fun x hx => hall x (List.mem_cons_of_mem _ hx)) (i + 1) max
      (by simp only [List.length_cons] at hlen; omega)
    simp only [List.cons_append, title_loop, List.append_eq, hlt, hb0, ne_eq, not_false_eq_true,
      and_self, if_true, hk, h58, if_false, hrec]
    rfl

/-- Away from the titles on which the first pass writes more than 255
characters, sanitizing a sanitized title changes nothing. -/
theorem sanitize_title_fixed_of_short (s t : List Nat) (h : sanitize_title s = .ok t)
    (hlen : t.length ≤ 255) : sanitize_title t = .ok t :=
  title_loop_fixed t (title_loop_chars _ 0 255 t h) 0 255 (by omega)

theorem bind_eq_ok {α β : Type} {x : Except Fault α} {f : α → Except Fault β} {b : β}
    (h : (x >>= f) = .ok b) : ∃ a, x = .ok a ∧ f a = .ok b := by
  cases x with
  | error e => cases h
  | ok a => exact ⟨a, rfl, h⟩

theorem copy_string_strip {c : Nat} {rest v : List Nat} (h : copy_string (c :: rest) = .ok v) :
    copy_string (if c = 48 then rest else c :: rest) = .ok (strip_leading_zero v) := by
  simp only [copy_string] at h
  split_ifs at h with hc0
  · cases h
    subst hc0
    simp [copy_string, strip_leading_zero]
  · obtain ⟨t, ht, rfl⟩ := map_eq_ok h
    by_cases h48 : c = 48
    · simp [h48, strip_leading_zero, ht]
    · simp only [h48, if_false, strip_leading_zero]
      simp only [copy_string, hc0, if_false, ht]
      rfl

theorem min_version_block_eq {mem v : List Nat} (h : copy_string mem = .ok v)
    (hne : strip_leading_zero v ≠ []) :
    min_version_block mem = .ok (strip_trailing_zero (strip_leading_zero v)) := by
  cases mem with
  | nil => cases h
  | cons c rest =>
    have hs := copy_string_strip h
    simp only [min_version_block, hs, bind, Except.bind]
    cases hl : (strip_leading_zero v).getLast? with
    | none => exact absurd (List.getLast?_eq_none_iff.1 hl) hne
    | some l =>
      simp only [strip_trailing_zero, hl, Option.some.injEq]
      split_ifs <;> rfl

theorem pkg_version_block_eq {mem w : List Nat} (h : copy_string mem = .ok w) :
    pkg_version_block mem = .ok (strip_leading_zero w) := by
  cases mem with
  | nil => cases h
  | cons c rest => exact copy_string_strip h

theorem strcmp_eq_unique : ∀ (l1 m l2 : List Nat), 0 ∉ l1 → 0 ∉ l2 →
    strcmp_eq m l1 = .ok true → strcmp_eq m l2 = .ok true → l1 = l2 := by
  intro l1
  induction l1 with
  | nil =>
    intro m l2 _ h2 e1 e2
    cases m with
    | nil => cases e1
    | cons c rest =>
      cases l2 with
      | nil => rfl
      | cons l ls =>
        simp only [strcmp_eq] at e1 e2
        have hc : c = 0 := by simpa using e1
        subst hc
        have hl : (0 : Nat) ≠ l := by
          intro hl
          exact h2 (by rw [← hl]; exact List.mem_cons_self _ _)
        rw [if_neg hl] at e2
        cases e2
  | cons a r ih =>
    intro m l2 h1 h2 e1 e2
    cases m with
    | nil => cases e1
    | cons c rest =>
      simp only [strcmp_eq] at e1
      split_ifs at e1 with hca
      · subst hca
        cases l2 with
        | nil =>
          simp only [strcmp_eq] at e2
          have hc : c = 0 := by simpa using e2
          subst hc
          exact absurd (List.mem_cons_self _ _) h1
        | cons l ls =>
          simp only [strcmp_eq] at e2
          split_ifs at e2 with hcl
          · subst hcl
            have := ih rest ls (fun h => h1 (List.mem_cons_of_mem _ h))
              (fun h => h2 (List.mem_cons_of_mem _ h)) e1 e2
            rw [this]
          · cases e2
      · cases e1

theorem entry_has_key_unique {sfo : List Nat} {keys i : Nat} {l1 l2 : List Nat}
    (h1 : entry_has_key sfo keys i l1 = true) (h2 : entry_has_key sfo keys i l2 = true)
    (z1 : 0 ∉ l1) (z2 : 0 ∉ l2) : l1 = l2 := by
  unfold entry_has_key at h1 h2
  cases hk : get16le sfo (i * 16 % 2 ^ 32 + 20) with
  | error e => rw [hk] at h1; cases h1
  | ok k =>
    rw [hk] at h1 h2
    simp only [decide_eq_true_eq] at h1 h2
    exact strcmp_eq_unique l1 _ l2 z1 z2 h1 h2

theorem has_of_strcmp {sfo : List Nat} {keys i k : Nat} {lit : List Nat} {b : Bool}
    (hk : get16le sfo (i * 16 % 2 ^ 32 + 20) = .ok k)
    (h : strcmp_eq (sfo.drop (keys + k)) lit = .ok b) :
    entry_has_key sfo keys i lit = b := by
  unfold entry_has_key
  rw [hk]
  simp only [h]
  cases b <;> simp

theorem scan_entry_eq {sfo : List Nat} {sfo_size keys i : Nat} {idx idx1 : SfoIndex}
    (h : scan_entry sfo sfo_size keys i idx = .ok idx1) :
    (i * 16 + 20 + 2) % 2 ^ 32 ≤ sfo_size ∧
      idx1 = scan_entry_pure (entry_has_key sfo keys i) i idx := by
  unfold scan_entry at h
  by_cases hsz : (i * 16 + 20 + 2) % 2 ^ 32 > sfo_size
  · rw [if_pos hsz] at h
    cases h
  rw [if_neg hsz] at h
  refine ⟨by omega, ?_⟩
  obtain ⟨k, hk, h⟩ := bind_eq_ok h
  obtain ⟨b1, e1, h⟩ := bind_eq_ok h
  have f1 := has_of_strcmp hk e1
  unfold scan_entry_pure
  rw [f1]
  cases b1 with
  | true =>
    simp only [if_true] at h ⊢
    split_ifs at h ⊢ <;> exact (Except.ok.inj h).symm
  | false =>
    simp only [Bool.false_eq_true, if_false] at h ⊢
    obtain ⟨b2, e2, h⟩ := bind_eq_ok h
    rw [has_of_strcmp hk e2]
    cases b2 with
    | true => exact (Except.ok.inj h).symm
    | false =>
      simp only [Bool.false_eq_true, if_false] at h ⊢
      obtain ⟨b3, e3, h⟩ := bind_eq_ok h
      rw [has_of_strcmp hk e3]
      cases b3 with
      | true => exact (Except.ok.inj h).symm
      | false =>
        simp only [Bool.false_eq_true, if_false] at h ⊢
        obtain ⟨b4, e4, h⟩ := bind_eq_ok h
        rw [has_of_strcmp hk e4]
        cases b4 with
        | true => exact (Except.ok.inj h).symm
        | false =>
          simp only [Bool.false_eq_true, if_false] at h ⊢
          obtain ⟨b5, e5, h⟩ := bind_eq_ok h
          rw [has_of_strcmp hk e5]
          cases b5 with
          | true => exact (Except.ok.inj h).symm
          | false =>
            simp only [Bool.false_eq_true, if_false] at h ⊢
            obtain ⟨b6, e6, h⟩ := bind_eq_ok h
            rw [has_of_strcmp hk e6]
            cases b6 with
            | true => exact (Except.ok.inj h).symm
            | false => exact (Except.ok.inj h).symm

theorem has_excl {sfo : List Nat} {keys i : Nat} {l1 l2 : List Nat}
    (h1 : entry_has_key sfo keys i l1 = true) (z1 : 0 ∉ l1) (z2 : 0 ∉ l2) (hne : l1 ≠ l2) :
    entry_has_key sfo keys i l2 = false := by
  cases h2 : entry_has_key sfo keys i l2 with
  | false => rfl
  | true => exact absurd (entry_has_key_unique h1 h2 z1 z2) hne

theorem scan_entry_title {sfo : List Nat} {sfo_size keys i : Nat} {idx idx1 : SfoIndex}
    (h : scan_entry sfo sfo_size keys i idx = .ok idx1) :
    idx1.title =
      if entry_has_key sfo keys i key_TITLE = true then
        (if idx.title < 0 then int_cast i else idx.title)
      else if entry_has_key sfo keys i key_STITLE = true then int_cast i
      else idx.title := by
  obtain ⟨-, rfl⟩ := scan_entry_eq h
  unfold scan_entry_pure
  split_ifs <;> rfl

theorem scan_entry_content {sfo : List Nat} {sfo_size keys i : Nat} {idx idx1 : SfoIndex}
    (h : scan_entry sfo sfo_size keys i idx = .ok idx1) :
    idx1.content =
      if entry_has_key sfo keys i key_CONTENT_ID = true then int_cast i else idx.content := by
  obtain ⟨-, rfl⟩ := scan_entry_eq h
  unfold scan_entry_pure
  cases hC : entry_has_key sfo keys i key_CONTENT_ID with
  | true =>
    have h1 := has_excl hC (by decide) (by decide) (by decide : key_CONTENT_ID ≠ key_TITLE)
    have h2 := has_excl hC (by decide) (by decide) (by decide : key_CONTENT_ID ≠ key_STITLE)
    simp [h1, h2]
  | false =>
    simp only [Bool.false_eq_true, if_false]
    split_ifs <;> rfl

theorem scan_entry_category {sfo : List Nat} {sfo_size keys i : Nat} {idx idx1 : SfoIndex}
    (h : scan_entry sfo sfo_size keys i idx = .ok idx1) :
    idx1.category =
      if entry_has_key sfo keys i key_CATEGORY = true then int_cast i else idx.category := by
  obtain ⟨-, rfl⟩ := scan_entry_eq h
  unfold scan_entry_pure
  cases hC : entry_has_key sfo keys i key_CATEGORY with
  | true =>
    have h1 := has_excl hC (by decide) (by decide) (by decide : key_CATEGORY ≠ key_TITLE)
    have h2 := has_excl hC (by decide) (by decide) (by decide : key_CATEGORY ≠ key_STITLE)
    have h3 := has_excl hC (by decide) (by decide) (by decide : key_CATEGORY ≠ key_CONTENT_ID)
    simp [h1, h2, h3]
  | false =>
    simp only [Bool.false_eq_true, if_false]
    split_ifs <;> rfl

theorem scan_entry_minver {sfo : List Nat} {sfo_size keys i : Nat} {idx idx1 : SfoIndex}
    (h : scan_entry sfo sfo_size keys i idx = .ok idx1) :
    idx1.minver =
      if entry_has_key sfo keys i key_PSP2_DISP_VER = true then int_cast i else idx.minver := by
  obtain ⟨-, rfl⟩ := scan_entry_eq h
  unfold scan_entry_pure
  cases hC : entry_has_key sfo keys i key_PSP2_DISP_VER with
  | true =>
    have h1 := has_excl hC (by decide) (by decide) (by decide : key_PSP2_DISP_VER ≠ key_TITLE)
    have h2 := has_excl hC (by decide) (by decide) (by decide : key_PSP2_DISP_VER ≠ key_STITLE)
    have h3 := has_excl hC (by decide) (by decide)
      (by decide : key_PSP2_DISP_VER ≠ key_CONTENT_ID)
    have h4 := has_excl hC (by decide) (by decide) (by decide : key_PSP2_DISP_VER ≠ key_CATEGORY)
    simp [h1, h2, h3, h4]
  | false =>
    simp only [Bool.false_eq_true, if_false]
    split_ifs <;> rfl

theorem scan_entry_pkgver {sfo : List Nat} {sfo_size keys i : Nat} {idx idx1 : SfoIndex}
    (h : scan_entry sfo sfo_size keys i idx = .ok idx1) :
    idx1.pkgver =
      if entry_has_key sfo keys i key_APP_VER = true then int_cast i else idx.pkgver := by
  obtain ⟨-, rfl⟩ := scan_entry_eq h
  unfold scan_entry_pure
  cases hC : entry_has_key sfo keys i key_APP_VER with
  | true =>
    have h1 := has_excl hC (by decide) (by decide) (by decide : key_APP_VER ≠ key_TITLE)
    have h2 := has_excl hC (by decide) (by decide) (by decide : key_APP_VER ≠ key_STITLE)
    have h3 := has_excl hC (by decide) (by decide) (by decide : key_APP_VER ≠ key_CONTENT_ID)
    have h4 := has_excl hC (by decide) (by decide) (by decide : key_APP_VER ≠ key_CATEGORY)
    have h5 := has_excl hC (by decide) (by decide) (by decide : key_APP_VER ≠ key_PSP2_DISP_VER)
    simp [h1, h2, h3, h4, h5]
  | false =>
    simp only [Bool.false_eq_true, if_false]
    split_ifs <;> rfl

theorem scan_loop_succ {sfo : List Nat} {sfo_size keys n i : Nat} {idx idx2 : SfoIndex}
    (h : scan_loop sfo sfo_size keys (n + 1) i idx = .ok idx2) :
    ∃ idx1, scan_entry sfo sfo_size keys i idx = .ok idx1 ∧
      scan_loop sfo sfo_size keys n (i + 1) idx1 = .ok idx2 := by
  unfold scan_loop at h
  exact bind_eq_ok h

theorem scan_loop_checked {sfo : List Nat} {sfo_size keys : Nat} :
    ∀ (n i : Nat) (idx idx2 : SfoIndex), scan_loop sfo sfo_size keys n i idx = .ok idx2 →
      ∀ j, i ≤ j → j < i + n → (j * 16 + 20 + 2) % 2 ^ 32 ≤ sfo_size := by
  intro n
  induction n with
  | zero => intro i idx idx2 _ j h1 h2; omega
  | succ n ih =>
    intro i idx idx2 h j h1 h2
    obtain ⟨idx1, he, hl⟩ := scan_loop_succ h
    by_cases hj : j = i
    · subst hj
      exact (scan_entry_eq he).1
    · exact ih (i + 1) idx1 idx2 hl j (by omega) (by omega)

theorem scan_loop_count_le {sfo : List Nat} {sfo_size keys count : Nat} {idx idx2 : SfoIndex}
    (hsize : sfo_size ≤ 16384)
    (h : scan_loop sfo sfo_size keys count 0 idx = .ok idx2) : count ≤ 1023 := by
  by_contra hc
  have := scan_loop_checked count 0 idx idx2 h 1023 (by omega) (by omega)
  norm_num at this
  omega

/-- A field of the index record that every matching entry overwrites. -/
theorem scan_loop_last {sfo : List Nat} {sfo_size keys : Nat} (proj : SfoIndex → Int)
    (lit : List Nat)
    (hstep : ∀ i idx idx1, scan_entry sfo sfo_size keys i idx = .ok idx1 →
      proj idx1 = if entry_has_key sfo keys i lit = true then int_cast i else proj idx) :
    ∀ (n i : Nat) (idx idx2 : SfoIndex), scan_loop sfo sfo_size keys n i idx = .ok idx2 →
      ((∀ k, i ≤ k → k < i + n → entry_has_key sfo keys k lit = false) → proj idx2 = proj idx) ∧
      (∀ j, i ≤ j → j < i + n → entry_has_key sfo keys j lit = true →
        (∀ k, j < k → k < i + n → entry_has_key sfo keys k lit = false) →
        proj idx2 = int_cast j) := by
  intro n
  induction n with
  | zero =>
    intro i idx idx2 h
    unfold scan_loop at h
    cases h
    exact ⟨fun _ => rfl, fun j h1 h2 => by omega⟩
  | succ n ih =>
    intro i idx idx2 h
    obtain ⟨idx1, he, hl⟩ := scan_loop_succ h
    obtain ⟨ih1, ih2⟩ := ih (i + 1) idx1 idx2 hl
    have hs := hstep i idx idx1 he
    constructor
    · intro hnone
      rw [ih1 (fun k h1 h2 => hnone k (by omega) (by omega)), hs, hnone i (by omega) (by omega)]
      simp
    · intro j h1 h2 hj hafter
      by_cases hji : j = i
      · subst hji
        rw [ih1 (fun k h1 h2 => hafter k (by omega) (by omega)), hs, hj]
        simp
      · exact ih2 j (by omega) (by omega) hj (fun k h1 h2 => hafter k h1 (by omega))

theorem int_cast_small {i : Nat} (h : i < 2 ^ 31) : int_cast i = (i : Int) := by
  unfold int_cast
  rw [if_pos h]

theorem scan_loop_title {sfo : List Nat} {sfo_size keys : Nat} :
    ∀ (n i : Nat) (idx idx2 : SfoIndex), i + n ≤ 2 ^ 31 →
      scan_loop sfo sfo_size keys n i idx = .ok idx2 →
      (∀ j, i ≤ j → j < i + n → entry_has_key sfo keys j key_STITLE = true →
        (∀ k, j < k → k < i + n → entry_has_key sfo keys k key_STITLE = false) →
        idx2.title = (j : Int)) ∧
      ((∀ k, i ≤ k → k < i + n → entry_has_key sfo keys k key_STITLE = false) →
        (0 ≤ idx.title → idx2.title = idx.title) ∧
        (idx.title < 0 →
          ((∀ k, i ≤ k → k < i + n → entry_has_key sfo keys k key_TITLE = false) →
            idx2.title = idx.title) ∧
          (∀ j, i ≤ j → j < i + n → entry_has_key sfo keys j key_TITLE = true →
            (∀ k, i ≤ k → k < j → entry_has_key sfo keys k key_TITLE = false) →
            idx2.title = (j : Int)))) := by
  intro n
  induction n with
  | zero =>
    intro i idx idx2 _ h
    unfold scan_loop at h
    cases h
    exact ⟨fun j h1 h2 => by omega, fun _ => ⟨fun _ => rfl, fun _ => ⟨fun _ => rfl,
      fun j h1 h2 => by omega⟩⟩⟩
  | succ n ih =>
    intro i idx idx2 hb h
    obtain ⟨idx1, he, hl⟩ := scan_loop_succ h
    obtain ⟨ihA, ihB⟩ := ih (i + 1) idx1 idx2 (by omega) hl
    have hs := scan_entry_title he
    have hci : int_cast i = (i : Int) := int_cast_small (by omega)
    rw [hci] at hs
    constructor
    · intro j h1 h2 hj hafter
      by_cases hji : j = i
      · subst hji
        have hT := has_excl hj (by decide) (by decide) (by decide : key_STITLE ≠ key_TITLE)
        rw [hT, hj] at hs
        simp only [Bool.false_eq_true, if_false, if_true] at hs
        have := (ihB (fun k h1 h2 => hafter k (by omega) (by omega))).1 (by rw [hs]; omega)
        rw [this, hs]
      · exact ihA j (by omega) (by omega) hj (fun k h1 h2 => hafter k h1 (by omega))
    · intro hnoS
      have hSi := hnoS i (by omega) (by omega)
      rw [hSi] at hs
      simp only [Bool.false_eq_true, if_false] at hs
      obtain ⟨ihB1, ihB2⟩ := ihB (fun k h1 h2 => hnoS k (by omega) (by omega))
      constructor
      · intro hpos
        have h1 : idx1.title = idx.title := by
          rw [hs]
          split_ifs with a b
          · omega
          · rfl
          · rfl
        rw [ihB1 (by rw [h1]; exact hpos), h1]
      · intro hneg
        constructor
        · intro hnoT
          have hTi := hnoT i (by omega) (by omega)
          rw [hTi] at hs
          simp only [Bool.false_eq_true, if_false] at hs
          rw [(ihB2 (by rw [hs]; exact hneg)).1 (fun k h1 h2 => hnoT k (by omega) (by omega)), hs]
        · intro j h1 h2 hj hbefore
          by_cases hji : j = i
          · subst hji
            rw [hj] at hs
            simp only [if_true, hneg] at hs
            rw [ihB1 (by rw [hs]; omega), hs]
          · have hTi := hbefore i (by omega) (by omega)
            rw [hTi] at hs
            simp only [Bool.false_eq_true, if_false] at hs
            exact (ihB2 (by rw [hs]; exact hneg)).2 j (by omega) (by omega) hj
              (fun k h1 h2 => hbefore k (by omega) h2)

theorem sfo_extract_stages {sfo : List Nat} {values : Nat} {idx : SfoIndex}
    {wp wc wm wv : Bool} {out : SfoOut}
    (h : sfo_extract sfo values idx wp wc wm wv = .ok out) :
    ∃ cat, title_step sfo values idx = .ok out.title ∧
      content_step sfo values idx wc = .ok out.content ∧
      category_step sfo values idx wp = .ok cat ∧ out.sfo = cat.1 ∧ out.patch = cat.2 ∧
      min_version_step out.sfo values idx wm = .ok out.min_version ∧
      pkg_version_step out.sfo values idx wv = .ok out.pkg_version := by
  unfold sfo_extract at h
  obtain ⟨t, ht, h⟩ := bind_eq_ok h
  obtain ⟨c, hc, h⟩ := bind_eq_ok h
  obtain ⟨cat, hcat, h⟩ := bind_eq_ok h
  obtain ⟨m, hm, h⟩ := bind_eq_ok h
  obtain ⟨p, hp, h⟩ := bind_eq_ok h
  cases h
  exact ⟨cat, ht, hc, hcat, rfl, rfl, hm, hp⟩

theorem parse_sfo_content_stages {sfo : List Nat} {sfo_size values : Nat} {idx : SfoIndex}
    {wp wc wm wv : Bool} {out : SfoOut}
    (hscan : sfo_scan sfo sfo_size = .ok (values, idx))
    (h : parse_sfo_content sfo sfo_size wp wc wm wv = .ok out) :
    sfo_extract sfo values idx wp wc wm wv = .ok out := by
  unfold parse_sfo_content at h
  rw [hscan] at h
  exact h

theorem c_string_chars_append_nul : ∀ (c : List Nat) (n : Nat),
    c_string_chars (c ++ [0]) n = c_string_chars c n := by
  intro c
  induction c with
  | nil =>
    intro n
    cases n with
    | zero => rfl
    | succ n => simp [c_string_chars]
  | cons y cs ih =>
    intro n
    cases n with
    | zero => rfl
    | succ n =>
      simp only [List.cons_append, c_string_chars, List.append_eq, ih]

theorem strncmp_ne_spec : ∀ (n : Nat) (a c : List Nat), n ≤ a.length →
    strncmp_ne a (c ++ [0]) n =
      .ok (decide (c_string_chars a n ≠ c_string_chars c n)) := by
  intro n
  induction n with
  | zero =>
    intro a c _
    simp [strncmp_ne, c_string_chars]
  | succ n ih =>
    intro a c hlen
    cases a with
    | nil => simp at hlen
    | cons x as =>
      have hlen2 : n ≤ as.length := by simpa using hlen
      cases c with
      | nil =>
        by_cases hx : x = 0
        · subst hx
          simp [strncmp_ne, c_string_chars]
        · simp [strncmp_ne, c_string_chars, hx]
      | cons y cs =>
        simp only [List.cons_append, strncmp_ne, c_string_chars, List.append_eq]
        by_cases hxy : x = y
        · subst hxy
          by_cases hx : x = 0
          · subst hx
            simp
          · simp only [ne_eq, not_true_eq_false, if_false, hx]
            rw [ih as cs hlen2]
            simp
        · simp only [ne_eq, hxy, not_false_eq_true, if_true]
          by_cases hx : x = 0
          · subst hx
            have hy : ¬ y = 0 := fun h => hxy h.symm
            simp [hy]
          · by_cases hy : y = 0
            · simp [hx, hy]
            · simp [hx, hy, hxy]

theorem license_check_spec (zrif_decode : List Nat → Except Fault (List Nat))
    (token rif c : List Nat) (hdec : zrif_decode token = .ok rif) (hlen : 0x40 ≤ rif.length) :
    license_check zrif_decode (some token) false (some c) =
      if c_string_chars (rif.drop 0x10) 0x30 ≠ c_string_chars c 0x30 then
        .error .zrif_mismatch
      else .ok (some rif) := by
  have h := strncmp_ne_spec 0x30 (rif.drop 0x10) c (by rw [List.length_drop]; omega)
  simp only [license_check, hdec, bind, Except.bind, h, if_true]
  by_cases hp : c_string_chars (rif.drop 0x10) 0x30 = c_string_chars c 0x30
  · simp [hp]
    rfl
  · simp [hp]
    rfl

theorem memcmp_eq_take : ∀ (lit id : List Nat), lit.length ≤ id.length →
    memcmp_eq id lit = .ok (decide (id.take lit.length = lit)) := by
  intro lit
  induction lit with
  | nil =>
    intro id _
    cases id <;> simp [memcmp_eq]
  | cons l lit ih =>
    intro id h
    cases id with
    | nil => simp at h
    | cons m ms =>
      have h2 : lit.length ≤ ms.length := by simpa using h
      simp only [memcmp_eq, List.length_cons, List.take_succ_cons, List.cons.injEq]
      by_cases hml : m = l
      · subst hml
        rw [if_pos rfl, ih ms h2]
        simp
      · rw [if_neg hml]
        simp [hml]

theorem memcmp_any_take (id : List Nat) (h : 4 ≤ id.length) :
    ∀ (lits : List (List Nat)), (∀ l ∈ lits, l.length = 4) →
      memcmp_any id lits = .ok (decide (id.take 4 ∈ lits)) := by
  intro lits
  induction lits with
  | nil =>
    intro _
    simp [memcmp_any]
  | cons l lits ih =>
    intro hl
    have h4 : l.length = 4 := hl l (List.mem_cons_self _ _)
    have hm := memcmp_eq_take l id (by omega)
    rw [h4] at hm
    have hrest := ih (fun x hx => hl x (List.mem_cons_of_mem _ hx))
    simp only [memcmp_any, hm, bind, Except.bind, hrest, List.mem_cons]
    by_cases hp : id.take 4 = l
    · simp [hp]
      rfl
    · simp [hp]

theorem get_region_eq (id : List Nat) (h : 4 ≤ id.length) :
    get_region id = .ok (region_of (id.take 4)) := by
  have h1 := memcmp_any_take id h ids_USA (by decide)
  have h2 := memcmp_any_take id h ids_EUR (by decide)
  have h3 := memcmp_any_take id h ids_JPN (by decide)
  have h4 := memcmp_any_take id h ids_ASA (by decide)
  simp only [get_region, region_of, h1, h2, h3, h4, bind, Except.bind, decide_eq_true_eq]
  split_ifs <;> rfl

theorem snprintf_cut_of_le {n : Nat} {text : List Nat} (h : text.length + 1 ≤ n) :
    snprintf_cut n text = text := by
  unfold snprintf_cut
  exact List.take_of_length_le (by omega)

theorem sys_read_ok {pkg : List Nat} {offset size : Nat} (h : offset + size ≤ pkg.length) :
    sys_read pkg offset size = .ok ((pkg.drop offset).take size) := by
  unfold sys_read
  rw [if_pos h]

theorem xor_stream_length (stream : Nat → Nat) : ∀ (buf : List Nat) (pos : Nat),
    (xor_stream stream pos buf).length = buf.length := by
  intro buf
  induction buf with
  | nil => intro pos; rfl
  | cons b bs ih => intro pos; simp [xor_stream, ih]

theorem xor_stream_append (stream : Nat → Nat) : ∀ (a b : List Nat) (pos : Nat),
    xor_stream stream pos (a ++ b) =
      xor_stream stream pos a ++ xor_stream stream (pos + a.length) b := by
  intro a
  induction a with
  | nil => intro b pos; simp [xor_stream]
  | cons x xs ih =>
    intro b pos
    simp only [List.cons_append, xor_stream, ih, List.length_cons, List.append_eq]
    have harith : pos + 1 + xs.length = pos + (xs.length + 1) := by omega
    rw [harith]

theorem take_drop_split (l : List Nat) (off a b : Nat) :
    (l.drop off).take a ++ (l.drop (off + a)).take b = (l.drop off).take (a + b) := by
  rw [List.take_add, List.drop_drop]


theorem chunk_loop_join (ctr : List Nat → List Nat → Nat → List Nat → List Nat)
    (stream : List Nat → List Nat → Nat → Nat)
    (hctr : ∀ k iv c buf, ctr k iv c buf = xor_stream (stream k iv) (16 * c) buf)
    (k iv pkg : List Nat) (enc_offset : Nat) (hsize : pkg.length < 2 ^ 64) :
    ∀ (n offset data_size : Nat), data_size < n * 2 ^ 16 → offset % 16 = 0 →
      enc_offset + offset + data_size ≤ pkg.length →
      (∃ chunks, chunk_loop ctr (some k) iv pkg enc_offset true n offset data_size = .ok chunks ∧
        chunks.flatten =
          xor_stream (stream k iv) offset ((pkg.drop (enc_offset + offset)).take data_size)) ∧
      (∀ key, ∃ chunks,
        chunk_loop ctr key iv pkg enc_offset false n offset data_size = .ok chunks ∧
        chunks.flatten = (pkg.drop (enc_offset + offset)).take data_size) := by
  intro n
  induction n with
  | zero => intro offset data_size h; omega
  | succ n ih =>
    intro offset data_size hfuel halign hspan
    by_cases hz : data_size = 0
    · subst hz
      simp [chunk_loop, xor_stream]
    · have h16 : 16 * (offset / 16) = offset := by omega
      have hmin : min data_size (2 ^ 16) ≤ data_size := Nat.min_le_left _ _
      have hmin2 : min data_size (2 ^ 16) ≤ 2 ^ 16 := Nat.min_le_right _ _
      have hmod : (enc_offset + offset) % 2 ^ 64 = enc_offset + offset :=
        Nat.mod_eq_of_lt (by omega)
      have hmod2 : (offset + min data_size (2 ^ 16)) % 2 ^ 64 = offset + min data_size (2 ^ 16) :=
        Nat.mod_eq_of_lt (by omega)
      have hread : sys_read pkg (enc_offset + offset) (min data_size (2 ^ 16)) =
          .ok ((pkg.drop (enc_offset + offset)).take (min data_size (2 ^ 16))) :=
        sys_read_ok (by omega)
      have hsplit := take_drop_split pkg (enc_offset + offset) (min data_size (2 ^ 16))
        (data_size - min data_size (2 ^ 16))
      rw [Nat.add_sub_cancel' hmin] at hsplit
      have hrestlen : ((pkg.drop (enc_offset + offset)).take (min data_size (2 ^ 16))).length =
          min data_size (2 ^ 16) := by
        rw [List.length_take, List.length_drop]
        omega
      by_cases hlast : data_size ≤ 2 ^ 16
      · -- the last chunk
        have hm : min data_size (2 ^ 16) = data_size := Nat.min_eq_left hlast
        have hrest : ∀ key dec, chunk_loop ctr key iv pkg enc_offset dec n
            (offset + data_size) (data_size - data_size) = .ok [] := by
          intro key dec
          rw [Nat.sub_self]
          cases n <;> simp [chunk_loop]
        rw [hm] at hread hmod2
        constructor
        · refine ⟨[ctr k iv (offset / 16) ((pkg.drop (enc_offset + offset)).take data_size)],
            ?_, ?_⟩
          · simp only [chunk_loop, hz, if_false, hm, hmod, hread, bind, Except.bind, use_key,
              if_true, hmod2, hrest]
            rfl
          · simp only [List.flatten, List.append_nil, hctr, h16]
        · intro key
          refine ⟨[(pkg.drop (enc_offset + offset)).take data_size], ?_, ?_⟩
          · simp only [chunk_loop, hz, if_false, hm, hmod, hread, bind, Except.bind,
              Bool.false_eq_true, hmod2, hrest]
            rfl
          · simp [List.flatten]
      · have hm : min data_size (2 ^ 16) = 2 ^ 16 := Nat.min_eq_right (by omega)
        rw [hm] at hread hmod2 hsplit hrestlen
        obtain ⟨⟨c1, hc1, hj1⟩, ih2⟩ := ih (offset + 2 ^ 16) (data_size - 2 ^ 16)
          (by omega) (by omega) (by omega)
        have hadd : enc_offset + (offset + 2 ^ 16) = enc_offset + offset + 2 ^ 16 := by omega
        rw [hadd] at hj1
        constructor
        · refine ⟨ctr k iv (offset / 16) ((pkg.drop (enc_offset + offset)).take (2 ^ 16)) :: c1,
            ?_, ?_⟩
          · simp only [chunk_loop, hz, if_false, hm, hmod, hread, bind, Except.bind, use_key,
              if_true, hmod2, hc1]
            rfl
          · simp only [List.flatten, hj1, hctr, h16]
            rw [← hsplit, xor_stream_append, hrestlen]
        · intro key
          obtain ⟨c2, hc2, hj2⟩ := ih2 key
          rw [hadd] at hj2
          refine ⟨(pkg.drop (enc_offset + offset)).take (2 ^ 16) :: c2, ?_, ?_⟩
          · simp only [chunk_loop, hz, if_false, hm, hmod, hread, bind, Except.bind,
              Bool.false_eq_true, hmod2, hc2]
            rfl
          · simp only [List.flatten, hj2]
            exact hsplit

theorem head_loop_join (pkg : List Nat) (hsize : pkg.length < 2 ^ 64) :
    ∀ (n head_size head_offset : Nat), head_size ≤ n * 2 ^ 16 →
      head_offset + head_size ≤ pkg.length →
      ∃ chunks, head_loop pkg n head_size head_offset = .ok chunks ∧
        chunks.flatten = (pkg.drop head_offset).take head_size := by
  intro n
  induction n with
  | zero =>
    intro head_size head_offset h _
    have hz : head_size = 0 := by omega
    subst hz
    exact ⟨[], by simp [head_loop], rfl⟩
  | succ n ih =>
    intro head_size head_offset hfuel hspan
    by_cases hz : head_size = 0
    · subst hz
      simp [head_loop]
    · have hmin : min head_size (2 ^ 16) ≤ head_size := Nat.min_le_left _ _
      have hmin2 : 0 < min head_size (2 ^ 16) := by
        rw [Nat.lt_min]
        exact ⟨by omega, by norm_num⟩
      have hmin3 : min head_size (2 ^ 16) ≤ 2 ^ 16 := Nat.min_le_right _ _
      have hmod : (head_offset + min head_size (2 ^ 16)) % 2 ^ 64 =
          head_offset + min head_size (2 ^ 16) := Nat.mod_eq_of_lt (by omega)
      have hread : sys_read pkg head_offset (min head_size (2 ^ 16)) =
          .ok ((pkg.drop head_offset).take (min head_size (2 ^ 16))) :=
        sys_read_ok (by omega)
      have hsplit := take_drop_split pkg head_offset (min head_size (2 ^ 16))
        (head_size - min head_size (2 ^ 16))
      rw [Nat.add_sub_cancel' hmin] at hsplit
      have hfuel2 : head_size - min head_size (2 ^ 16) ≤ n * 2 ^ 16 := by
        by_cases hlast : head_size ≤ 2 ^ 16
        · rw [Nat.min_eq_left hlast, Nat.sub_self]
          exact Nat.zero_le _
        · rw [Nat.min_eq_right (by omega)]
          omega
      obtain ⟨c1, hc1, hj1⟩ := ih (head_size - min head_size (2 ^ 16))
        (head_offset + min head_size (2 ^ 16)) hfuel2 (by omega)
      refine ⟨(pkg.drop head_offset).take (min head_size (2 ^ 16)) :: c1, ?_, ?_⟩
      · simp only [head_loop, hz, if_false, hread, bind, Except.bind, hmod, hc1]
        rfl
      · simp only [List.flatten, hj1]
        exact hsplit

theorem tail_loop_join (pkg : List Nat) (hsize : pkg.length < 2 ^ 64) :
    ∀ (n tail_offset : Nat), pkg.length - tail_offset ≤ n * 2 ^ 16 →
      tail_offset ≤ pkg.length →
      ∃ chunks, tail_loop pkg pkg.length n tail_offset = .ok chunks ∧
        chunks.flatten = pkg.drop tail_offset := by
  intro n
  induction n with
  | zero =>
    intro tail_offset h hle
    have hz : tail_offset = pkg.length := by omega
    subst hz
    exact ⟨[], by simp [tail_loop], by simp⟩
  | succ n ih =>
    intro tail_offset hfuel hle
    by_cases hz : tail_offset = pkg.length
    · subst hz
      simp [tail_loop]
    · have hdiff : (pkg.length + 2 ^ 64 - tail_offset) % 2 ^ 64 = pkg.length - tail_offset := by
        have : pkg.length + 2 ^ 64 - tail_offset = (pkg.length - tail_offset) + 2 ^ 64 := by omega
        rw [this, Nat.add_mod_right]
        exact Nat.mod_eq_of_lt (by omega)
      have hmin : min (pkg.length - tail_offset) (2 ^ 16) ≤ pkg.length - tail_offset :=
        Nat.min_le_left _ _
      have hmin2 : 0 < min (pkg.length - tail_offset) (2 ^ 16) := by
        rw [Nat.lt_min]
        exact ⟨by omega, by norm_num⟩
      have hmod : (tail_offset + min (pkg.length - tail_offset) (2 ^ 16)) % 2 ^ 64 =
          tail_offset + min (pkg.length - tail_offset) (2 ^ 16) := Nat.mod_eq_of_lt (by omega)
      have hread : sys_read pkg tail_offset (min (pkg.length - tail_offset) (2 ^ 16)) =
          .ok ((pkg.drop tail_offset).take (min (pkg.length - tail_offset) (2 ^ 16))) :=
        sys_read_ok (by omega)
      have hfuel2 : pkg.length - (tail_offset + min (pkg.length - tail_offset) (2 ^ 16)) ≤
          n * 2 ^ 16 := by
        by_cases hlast : pkg.length - tail_offset ≤ 2 ^ 16
        · rw [Nat.min_eq_left hlast]
          omega
        · rw [Nat.min_eq_right (by omega)]
          omega
      obtain ⟨c1, hc1, hj1⟩ := ih (tail_offset + min (pkg.length - tail_offset) (2 ^ 16))
        hfuel2 (by omega)
      refine ⟨(pkg.drop tail_offset).take (min (pkg.length - tail_offset) (2 ^ 16)) :: c1,
        ?_, ?_⟩
      · simp only [tail_loop, hz, if_false, hdiff, hread, bind, Except.bind, hmod, hc1]
        rfl
      · simp only [List.flatten, hj1]
        rw [← List.drop_drop, List.take_append_drop]

theorem root_path_length {content_type : Nat} {md : Metadata} {root : List Nat}
    (h : root_path content_type md = .ok root) : root.length ≤ 63 := by
  unfold root_path at h
  split_ifs at h
  · have := Except.ok.inj h
    rw [← this]
    simp
  · obtain ⟨id, -, h⟩ := bind_eq_ok h
    obtain ⟨id2, -, h⟩ := bind_eq_ok h
    have := Except.ok.inj h
    rw [← this]
    simp only [snprintf_cut, List.length_take]
    omega
  · obtain ⟨id, -, h⟩ := bind_eq_ok h
    have := Except.ok.inj h
    rw [← this]
    simp only [snprintf_cut, List.length_take]
    omega
  · obtain ⟨id, -, h⟩ := bind_eq_ok h
    have := Except.ok.inj h
    rw [← this]
    simp only [snprintf_cut, List.length_take]
    omega

theorem main_stages {ecb : List Nat → List Nat → List Nat}
    {ctr : List Nat → List Nat → Nat → List Nat → List Nat}
    {zrif_decode : List Nat → Except Fault (List Nat)} {zip_max_filename : Nat}
    {pkg : List Nat} {argv2 : Option (List Nat)} {a : Archive}
    (h : main ecb ctr zrif_decode zip_max_filename pkg argv2 = .ok a) :
    ∃ pkg_header hdr blocks md folders root items trailer,
      sys_read pkg 0 256 = .ok pkg_header ∧
      validate_header pkg.length pkg_header = .ok hdr ∧
      scan_meta pkg hdr.meta_count hdr.meta_offset MetaBlocks.init = .ok blocks ∧
      main_metadata ctr zrif_decode zip_max_filename (derive_keys ecb pkg_header) pkg hdr
        blocks.content_type blocks.sfo_offset blocks.sfo_size blocks.items_offset argv2 = .ok md ∧
      archive_name pkg_header blocks.content_type md = .ok a.name ∧
      scaffold blocks.content_type md = .ok folders ∧
      root_path blocks.content_type md = .ok root ∧
      item_loop ctr zip_max_filename (derive_keys ecb pkg_header) hdr.iv pkg hdr.enc_offset
        blocks.items_offset (is_psp blocks.content_type) root hdr.item_count 0 = .ok items ∧
      trailer_files pkg hdr blocks.items_size (is_psp blocks.content_type) md.patch root argv2
        md.rif = .ok trailer ∧
      a.entries = folders ++ items ++ trailer := by
  unfold main at h
  obtain ⟨pkg_header, h1, h⟩ := bind_eq_ok h
  obtain ⟨hdr, h2, h⟩ := bind_eq_ok h
  obtain ⟨blocks, h3, h⟩ := bind_eq_ok h
  obtain ⟨md, h4, h⟩ := bind_eq_ok h
  obtain ⟨name, h5, h⟩ := bind_eq_ok h
  obtain ⟨folders, h6, h⟩ := bind_eq_ok h
  obtain ⟨root, h7, h⟩ := bind_eq_ok h
  obtain ⟨items, h8, h⟩ := bind_eq_ok h
  obtain ⟨trailer, h9, h⟩ := bind_eq_ok h
  have ha := Except.ok.inj h
  subst ha
  exact ⟨pkg_header, hdr, blocks, md, folders, root, items, trailer, h1, h2, h3, h4, h5, h6, h7,
    h8, h9, rfl⟩

theorem main_metadata_fit {ctr : List Nat → List Nat → Nat → List Nat → List Nat}
    {zrif_decode : List Nat → Except Fault (List Nat)} {zip_max_filename : Nat}
    {keys : Keys} {pkg : List Nat} {hdr : PkgHeader}
    {content_type sfo_offset sfo_size items_offset : Nat} {argv2 : Option (List Nat)}
    {out : SfoOut} (hpsp : is_psp content_type = false)
    (hparse : parse_sfo pkg sfo_offset sfo_size = .ok out)
    (hfit : buffers_hold (some out.title) out.content out.min_version out.pkg_version = true) :
    main_metadata ctr zrif_decode zip_max_filename keys pkg hdr content_type sfo_offset sfo_size
        items_offset argv2 =
      (license_check zrif_decode argv2 out.patch out.content >>= fun rif =>
        pure { title := some out.title, content := out.content, patch := out.patch,
               min_version := out.min_version, pkg_version := out.pkg_version, rif := rif }) := by
  simp only [main_metadata, hpsp, Bool.false_eq_true, if_false, hparse, bind, Except.bind, hfit,
    Bool.true_eq_false]

theorem main_metadata_parsed {ctr : List Nat → List Nat → Nat → List Nat → List Nat}
    {zrif_decode : List Nat → Except Fault (List Nat)} {zip_max_filename : Nat}
    {keys : Keys} {pkg : List Nat} {hdr : PkgHeader}
    {content_type sfo_offset sfo_size items_offset : Nat} {argv2 : Option (List Nat)}
    {md : Metadata} (hpsp : is_psp content_type = false)
    (h : main_metadata ctr zrif_decode zip_max_filename keys pkg hdr content_type sfo_offset
      sfo_size items_offset argv2 = .ok md) :
    ∃ out, parse_sfo pkg sfo_offset sfo_size = .ok out ∧
      buffers_hold (some out.title) out.content out.min_version out.pkg_version = true ∧
      md.title = some out.title ∧ md.content = out.content ∧ md.patch = out.patch ∧
      md.min_version = out.min_version ∧ md.pkg_version = out.pkg_version := by
  simp only [main_metadata, hpsp, Bool.false_eq_true, if_false] at h
  obtain ⟨out, hparse, h⟩ := bind_eq_ok h
  by_cases hfit : buffers_hold (some out.title) out.content out.min_version out.pkg_version = true
  · rw [if_neg (by rw [hfit]; decide)] at h
    obtain ⟨rif, -, h⟩ := bind_eq_ok h
    have e := Except.ok.inj h
    subst e
    exact ⟨out, hparse, hfit, rfl, rfl, rfl, rfl, rfl⟩
  · rw [if_pos (by simpa using hfit)] at h
    exact Except.noConfusion h

theorem get_region_length {id r : List Nat} (h : get_region id = .ok r) : r.length ≤ 14 := by
  unfold get_region at h
  obtain ⟨b1, -, h⟩ := bind_eq_ok h
  cases b1
  · obtain ⟨b2, -, h⟩ := bind_eq_ok h
    cases b2
    · obtain ⟨b3, -, h⟩ := bind_eq_ok h
      cases b3
      · obtain ⟨b4, -, h⟩ := bind_eq_ok h
        cases b4
        · have e := Except.ok.inj h
          rw [← e]
          decide
        · have e := Except.ok.inj h
          rw [← e]
          decide
      · have e := Except.ok.inj h
        rw [← e]
        decide
    · have e := Except.ok.inj h
      rw [← e]
      decide
  · have e := Except.ok.inj h
    rw [← e]
    decide

theorem get_region_table (id : List Nat) (h : 4 ≤ id.length) :
    get_region id = .ok (region_of (id.take 4)) ∧
    (get_region id = .ok region_USA ↔ id.take 4 ∈ ids_USA) ∧
    (get_region id = .ok region_EUR ↔ id.take 4 ∈ ids_EUR) ∧
    (get_region id = .ok region_JPN ↔ id.take 4 ∈ ids_JPN) ∧
    (get_region id = .ok region_ASA ↔ id.take 4 ∈ ids_ASA) ∧
    (get_region id = .ok region_unknown ↔
      id.take 4 ∉ ids_USA ∧ id.take 4 ∉ ids_EUR ∧ id.take 4 ∉ ids_JPN ∧ id.take 4 ∉ ids_ASA) ∧
    (∀ other : List Nat, 4 ≤ other.length → other.take 4 = id.take 4 →
      get_region other = get_region id) := by
  have he := get_region_eq id h
  have hUE : ∀ p : List Nat, p ∈ ids_USA → p ∉ ids_EUR := by
    intro p hp
    simp only [ids_USA, List.mem_cons, List.mem_singleton, List.not_mem_nil, or_false] at hp
    rcases hp with rfl | rfl <;> decide
  have hUJ : ∀ p : List Nat, p ∈ ids_USA → p ∉ ids_JPN := by
    intro p hp
    simp only [ids_USA, List.mem_cons, List.mem_singleton, List.not_mem_nil, or_false] at hp
    rcases hp with rfl | rfl <;> decide
  have hUA : ∀ p : List Nat, p ∈ ids_USA → p ∉ ids_ASA := by
    intro p hp
    simp only [ids_USA, List.mem_cons, List.mem_singleton, List.not_mem_nil, or_false] at hp
    rcases hp with rfl | rfl <;> decide
  have hEJ : ∀ p : List Nat, p ∈ ids_EUR → p ∉ ids_JPN := by
    intro p hp
    simp only [ids_EUR, List.mem_cons, List.mem_singleton, List.not_mem_nil, or_false] at hp
    rcases hp with rfl | rfl <;> decide
  have hEA : ∀ p : List Nat, p ∈ ids_EUR → p ∉ ids_ASA := by
    intro p hp
    simp only [ids_EUR, List.mem_cons, List.mem_singleton, List.not_mem_nil, or_false] at hp
    rcases hp with rfl | rfl <;> decide
  have hJA : ∀ p : List Nat, p ∈ ids_JPN → p ∉ ids_ASA := by
    intro p hp
    simp only [ids_JPN, List.mem_cons, List.mem_singleton, List.not_mem_nil, or_false] at hp
    rcases hp with rfl | rfl | rfl | rfl | rfl <;> decide
  refine ⟨he, ?_, ?_, ?_, ?_, ?_, ?_⟩
  · rw [he]
    unfold region_of
    split_ifs with a b c d
    · exact ⟨fun _ => a, fun _ => rfl⟩
    · exact ⟨fun e => absurd (Except.ok.inj e) (by decide), fun e => absurd e a⟩
    · exact ⟨fun e => absurd (Except.ok.inj e) (by decide), fun e => absurd e a⟩
    · exact ⟨fun e => absurd (Except.ok.inj e) (by decide), fun e => absurd e a⟩
    · exact ⟨fun e => absurd (Except.ok.inj e) (by decide), fun e => absurd e a⟩
  · rw [he]
    unfold region_of
    split_ifs with a b c d
    · exact ⟨fun e => absurd (Except.ok.inj e) (by decide), fun e => absurd e (hUE _ a)⟩
    · exact ⟨fun _ => b, fun _ => rfl⟩
    · exact ⟨fun e => absurd (Except.ok.inj e) (by decide), fun e => absurd e b⟩
    · exact ⟨fun e => absurd (Except.ok.inj e) (by decide), fun e => absurd e b⟩
    · exact ⟨fun e => absurd (Except.ok.inj e) (by decide), fun e => absurd e b⟩
  · rw [he]
    unfold region_of
    split_ifs with a b c d
    · exact ⟨fun e => absurd (Except.ok.inj e) (by decide), fun e => absurd e (hUJ _ a)⟩
    · exact ⟨fun e => absurd (Except.ok.inj e) (by decide), fun e => absurd e (hEJ _ b)⟩
    · exact ⟨fun _ => c, fun _ => rfl⟩
    · exact ⟨fun e => absurd (Except.ok.inj e) (by decide), fun e => absurd e c⟩
    · exact ⟨fun e => absurd (Except.ok.inj e) (by decide), fun e => absurd e c⟩
  · rw [he]
    unfold region_of
    split_ifs with a b c d
    · exact ⟨fun e => absurd (Except.ok.inj e) (by decide), fun e => absurd e (hUA _ a)⟩
    · exact ⟨fun e => absurd (Except.ok.inj e) (by decide), fun e => absurd e (hEA _ b)⟩
    · exact ⟨fun e => absurd (Except.ok.inj e) (by decide), fun e => absurd e (hJA _ c)⟩
    · exact ⟨fun _ => d, fun _ => rfl⟩
    · exact ⟨fun e => absurd (Except.ok.inj e) (by decide), fun e => absurd e d⟩
  · rw [he]
    unfold region_of
    split_ifs with a b c d
    · exact ⟨fun e => absurd (Except.ok.inj e) (by decide), fun e => absurd a e.1⟩
    · exact ⟨fun e => absurd (Except.ok.inj e) (by decide), fun e => absurd b e.2.1⟩
    · exact ⟨fun e => absurd (Except.ok.inj e) (by decide), fun e => absurd c e.2.2.1⟩
    · exact ⟨fun e => absurd (Except.ok.inj e) (by decide), fun e => absurd d e.2.2.2⟩
    · exact ⟨fun _ => ⟨a, b, c, d⟩, fun _ => rfl⟩
  · intro other ho hp
    rw [he, get_region_eq other ho, hp]

theorem memcmp_eq_nul : ∀ (lit id : List Nat), 0 ∉ lit →
    ∃ b, memcmp_eq (id ++ [0]) lit = .ok b := by
  intro lit
  induction lit with
  | nil =>
    intro id _
    cases id <;> exact ⟨true, rfl⟩
  | cons l lit ih =>
    intro id h0
    have hl : ¬ (0 = l) := fun e => h0 (e ▸ List.mem_cons_self _ _)
    have h0r : 0 ∉ lit := fun hm => h0 (List.mem_cons_of_mem _ hm)
    cases id with
    | nil =>
      refine ⟨false, ?_⟩
      simp only [List.nil_append, memcmp_eq, if_neg hl]
    | cons m ms =>
      simp only [List.cons_append, memcmp_eq]
      by_cases hml : m = l
      · rw [if_pos hml]
        exact ih ms h0r
      · rw [if_neg hml]
        exact ⟨false, rfl⟩

theorem memcmp_any_nul (id : List Nat) : ∀ (lits : List (List Nat)), (∀ l ∈ lits, 0 ∉ l) →
    ∃ b, memcmp_any (id ++ [0]) lits = .ok b := by
  intro lits
  induction lits with
  | nil => intro _; exact ⟨false, rfl⟩
  | cons l lits ih =>
    intro h
    obtain ⟨b, hb⟩ := memcmp_eq_nul l id (h l (List.mem_cons_self _ _))
    obtain ⟨b2, hb2⟩ := ih (fun x hx => h x (List.mem_cons_of_mem _ hx))
    simp only [memcmp_any, hb, bind, Except.bind]
    cases b
    · exact ⟨b2, by simpa using hb2⟩
    · exact ⟨true, rfl⟩

theorem get_region_nul (id : List Nat) : ∃ r, get_region (id ++ [0]) = .ok r := by
  obtain ⟨b1, h1⟩ := memcmp_any_nul id ids_USA (by decide)
  obtain ⟨b2, h2⟩ := memcmp_any_nul id ids_EUR (by decide)
  obtain ⟨b3, h3⟩ := memcmp_any_nul id ids_JPN (by decide)
  obtain ⟨b4, h4⟩ := memcmp_any_nul id ids_ASA (by decide)
  simp only [get_region, h1, h2, h3, h4, bind, Except.bind]
  cases b1 <;> cases b2 <;> cases b3 <;> cases b4 <;> exact ⟨_, rfl⟩

theorem archive_name_of_metadata (pkg_header : List Nat) (content_type : Nat) (md : Metadata)
    (t c : List Nat) (n6 : content_type ≠ 6) (n7 : content_type ≠ 7) (nf : content_type ≠ 0xf)
    (n16 : content_type ≠ 0x16) (hpatch : md.patch = false) (ht : md.title = some t)
    (hc : md.content = some c) (htl : t.length ≤ 255) (hcl : 7 ≤ c.length) :
    ∃ r, get_region (c.drop 7 ++ [0]) = .ok r ∧
      (11 ≤ c.length → get_region ((c.drop 7).take 4) = .ok r) ∧
      archive_name pkg_header content_type md =
        .ok (t ++ [32, 91] ++ (c.drop 7).take 9 ++ [93, 32, 91] ++ r
          ++ [93, 46, 122, 105, 112]) := by
  have hpsp : is_psp content_type = false := by
    simp [is_psp, n6, n7, nf]
  have hdlc : is_dlc content_type = false := by
    simp [is_dlc, n16]
  obtain ⟨r, hr⟩ := get_region_nul (c.drop 7)
  refine ⟨r, hr, ?_, ?_⟩
  · intro h11
    have h4 : 4 ≤ (c.drop 7).length := by rw [List.length_drop]; omega
    have hr2 := hr
    rw [get_region_eq _ (by rw [List.length_append]; omega),
      List.take_append_of_le_length h4] at hr2
    rw [get_region_eq _ (by rw [List.length_take, List.length_drop]; omega), List.take_take]
    simpa using hr2
  · have hreg := get_region_length hr
    have hidl : ((c.drop 7).take 9).length ≤ 9 := by
      rw [List.length_take]
      omega
    simp only [archive_name, hpsp, hdlc, hpatch, Bool.false_eq_true, if_false, ht, hc,
      content_from, use_buffer, bind, Except.bind, pure, Except.pure]
    rw [if_pos hcl]
    simp only [hr]
    rw [snprintf_cut_of_le]
    simp only [List.length_append, List.length_cons, List.length_nil]
    omega

/-! ## C1: header validation -/

/-- C1 (the code departs from the claim): a 4096-byte container whose header
declares `total_size = 4096`, `enc_offset = 1024` and `item_count = 0x08000000`
passes header validation, although `enc_offset + 32 * item_count` exceeds the
container size: the product `item_count * 32` is reduced modulo `2^32`. -/
theorem validate_header_accepts_truncated :
    validate_header 4096 (make_header 256 0 0x08000000 4096 1024 2048 [] 2) =
        .ok { meta_offset := 256, meta_count := 0, item_count := 0x08000000, total_size := 4096,
              enc_offset := 1024, enc_size := 2048, iv := List.replicate 16 0, key_type := 2 } ∧
      4096 < 1024 + 32 * 0x08000000 := by
  constructor
  · decide
  · decide

/-! ## C2: the span check on an item record -/

/-- C2 (the code departs from the claim): in a 4096-byte container with
`enc_offset = 1024`, the item record with `name_offset = 0`, `name_size = 16`,
`data_offset = 16` and `data_size = 2^64 - 1024` passes both assertions and the
span check, although `enc_offset + data_offset + data_size` exceeds the
container size: the sum is reduced modulo `2^64`. -/
theorem check_item_accepts_wrapped_span :
    read_item (make_item 0 16 16 (2 ^ 64 - 1024) 0 0) =
        { name_offset := 0, name_size := 16, data_offset := 16, data_size := 2 ^ 64 - 1024,
          psp_type := 0, flags := 0 } ∧
      assert_item (read_item (make_item 0 16 16 (2 ^ 64 - 1024) 0 0)) = .ok () ∧
      check_item 4096 1024 (read_item (make_item 0 16 16 (2 ^ 64 - 1024) 0 0)) = .ok () ∧
      4096 < 1024 + 16 + (2 ^ 64 - 1024) := by
  refine ⟨by decide, by decide, by decide, by decide⟩

/-! ## C3: the characters of a sanitized title -/

/-- C4 (the code departs from the claim): for the metadata blob whose `TITLE` is
254 letters `a` followed by a colon, `parse_sfo_content` writes a title of 256
characters: at `i = 254` the test `i < max` still holds and the colon is
replaced by two characters. -/
theorem long_title_has_256_chars :
    sfo_value sfo_long_title 42 0 = .ok (List.replicate 254 97 ++ [58]) ∧
      parse_sfo_content sfo_long_title sfo_long_title.length false false false false =
        .ok { title := List.replicate 254 97 ++ [32, 45], content := none, patch := false,
              min_version := none, pkg_version := none, sfo := sfo_long_title } ∧
      (List.replicate 254 97 ++ [32, 45]).length = 256 := by
  refine ⟨by decide!, by decide!, by decide!⟩

/-- C5 (the code departs from the claim): sanitizing 254 letters `a` followed by
a colon gives 256 characters, and sanitizing those 256 characters again gives
only the first 255 of them. -/
theorem sanitize_title_not_idempotent :
    sanitize_title (List.replicate 254 97 ++ [58]) = .ok (List.replicate 254 97 ++ [32, 45]) ∧
      sanitize_title (List.replicate 254 97 ++ [32, 45]) = .ok (List.replicate 254 97 ++ [32]) ∧
      List.replicate 254 97 ++ [32] ≠ List.replicate 254 97 ++ [32, 45] := by
  refine ⟨by decide!, by decide!, by decide!⟩

/-! ## C6: key derivation -/

/-- C6: the keys `main` derives are a function of the selector, header byte
0xE7 masked to its low 3 bits, and of the initialization vector, header bytes
0x70 to 0x7F, alone: two headers that agree on both get the same keys. For
selector 1 the content key is the constant 07 f2 c6 82 90 b5 0d 2c 33 81 8d 70
9b 60 e6 2b and the secondary key is the constant 2e 7b 71 d7 c9 c9 a1 4e a3
22 1f 18 88 28 b8 f8, whatever the initialization vector; for selectors 2, 3
and 4 the content key is the block encryption of the initialization vector
under the constants `pkg_vita_2` (e3 1a 70 c9 ...), `pkg_vita_3`
(42 3a ca 3a ...) and `pkg_vita_4` (af 07 fd 59 ...) of lines 18 to 20. -/
theorem derive_keys_spec (ecb : List Nat → List Nat → List Nat) (h1 h2 : List Nat)
    (hsel : h1.getD 0xe7 0 &&& 7 = h2.getD 0xe7 0 &&& 7)
    (hiv : (h1.drop 0x70).take 16 = (h2.drop 0x70).take 16) :
    derive_keys ecb h1 = derive_keys ecb h2 ∧
    (h1.getD 0xe7 0 &&& 7 = 1 →
      derive_keys ecb h1 =
        { main_key := some [0x07, 0xf2, 0xc6, 0x82, 0x90, 0xb5, 0x0d, 0x2c, 0x33, 0x81, 0x8d,
            0x70, 0x9b, 0x60, 0xe6, 0x2b],
          ps3_key := some [0x2e, 0x7b, 0x71, 0xd7, 0xc9, 0xc9, 0xa1, 0x4e, 0xa3, 0x22, 0x1f,
            0x18, 0x88, 0x28, 0xb8, 0xf8] }) ∧
    (h1.getD 0xe7 0 &&& 7 = 2 →
      (derive_keys ecb h1).main_key =
        some (ecb [0xe3, 0x1a, 0x70, 0xc9, 0xce, 0x1d, 0xd7, 0x2b, 0xf3, 0xc0, 0x62, 0x29, 0x63,
          0xf2, 0xec, 0xcb] ((h1.drop 0x70).take 16))) ∧
    (h1.getD 0xe7 0 &&& 7 = 3 →
      (derive_keys ecb h1).main_key =
        some (ecb [0x42, 0x3a, 0xca, 0x3a, 0x2b, 0xd5, 0x64, 0x9f, 0x96, 0x86, 0xab, 0xad, 0x6f,
          0xd8, 0x80, 0x1f] ((h1.drop 0x70).take 16))) ∧
    (h1.getD 0xe7 0 &&& 7 = 4 →
      (derive_keys ecb h1).main_key =
        some (ecb [0xaf, 0x07, 0xfd, 0x59, 0x65, 0x25, 0x27, 0xba, 0xf1, 0x33, 0x89, 0x66, 0x8b,
          0x17, 0xd9, 0xea] ((h1.drop 0x70).take 16))) := by
  have hs1 : header_key_type h1 = h1.getD 0xe7 0 &&& 7 := rfl
  have hs2 : header_key_type h2 = h2.getD 0xe7 0 &&& 7 := rfl
  have hi1 : header_iv h1 = (h1.drop 0x70).take 16 := rfl
  have hi2 : header_iv h2 = (h2.drop 0x70).take 16 := rfl
  refine ⟨?_, ?_, ?_, ?_, ?_⟩
  · simp only [derive_keys, hs1, hs2, hi1, hi2, hsel, hiv]
  · intro h
    simp only [derive_keys, hs1, h, if_true]
    rfl
  · intro h
    simp only [derive_keys, hs1, hi1, h]
    rfl
  · intro h
    simp only [derive_keys, hs1, hi1, h]
    rfl
  · intro h
    simp only [derive_keys, hs1, hi1, h]
    rfl

/-- Witness for C6: two headers that differ in their item count and in the high
bits of byte 0xE7 but agree on selector 2 and on the initialization vector 01 02
... 10 get the same keys, and the content key is the block encryption (here the
bytewise XOR `toy_ecb`) of that vector under `pkg_vita_2`. -/
theorem derive_keys_spec_witness :
    derive_keys toy_ecb
        (make_header 256 0 1 4096 1024 2048 [1, 2, 3, 4, 5, 6, 7, 8, 9, 10, 11, 12, 13, 14, 15, 16]
          2) =
      derive_keys toy_ecb
        (make_header 256 0 7 4096 1024 2048 [1, 2, 3, 4, 5, 6, 7, 8, 9, 10, 11, 12, 13, 14, 15, 16]
          10) ∧
    (derive_keys toy_ecb
        (make_header 256 0 1 4096 1024 2048 [1, 2, 3, 4, 5, 6, 7, 8, 9, 10, 11, 12, 13, 14, 15, 16]
          2)).main_key =
      some [0xe2, 0x18, 0x73, 0xcd, 0xcb, 0x1b, 0xd0, 0x23, 0xfa, 0xca, 0x69, 0x25, 0x6e, 0xfc,
        0xe3, 0xdb] :=
  ⟨(derive_keys_spec toy_ecb
      (make_header 256 0 1 4096 1024 2048 [1, 2, 3, 4, 5, 6, 7, 8, 9, 10, 11, 12, 13, 14, 15, 16] 2)
      (make_header 256 0 7 4096 1024 2048 [1, 2, 3, 4, 5, 6, 7, 8, 9, 10, 11, 12, 13, 14, 15, 16]
        10) (by decide!) (by decide!)).1,
    ((derive_keys_spec toy_ecb
      (make_header 256 0 1 4096 1024 2048 [1, 2, 3, 4, 5, 6, 7, 8, 9, 10, 11, 12, 13, 14, 15, 16] 2)
      (make_header 256 0 7 4096 1024 2048 [1, 2, 3, 4, 5, 6, 7, 8, 9, 10, 11, 12, 13, 14, 15, 16]
        10) (by decide!) (by decide!)).2.2.1 (by decide!)).trans (by decide!)⟩

/-! ## C7: extraction of the recognized fields -/

/-- C7 (the code departs from the claim): in the blob `sfo_sorted_keys` entry 0
carries the key `APP_VER` with the value `01.00`, and `parse_sfo_content`,
called with every output requested, extracts the content id, the patch flag and
the minimum version but leaves `pkg_version` unwritten: the test
`pkgver_index > 0` excludes entry 0. -/
theorem parse_sfo_content_skips_entry_zero :
    get32le sfo_sorted_keys 8 = .ok 100 ∧ get32le sfo_sorted_keys 12 = .ok 148 ∧
      get32le sfo_sorted_keys 16 = .ok 5 ∧
      entry_has_key sfo_sorted_keys 100 0 key_APP_VER = true ∧
      sfo_value sfo_sorted_keys 148 0 = .ok [48, 49, 46, 48, 48] ∧
      parse_sfo_content sfo_sorted_keys sfo_sorted_keys.length true true true true =
        .ok { title := str_Demo, content := some str_content_id, patch := true,
              min_version := some [51, 46, 54, 49], pkg_version := none,
              sfo := sfo_sorted_keys } := by
  refine ⟨by decide!, by decide!, by decide!, by decide!, by decide!, by decide!⟩

/-! ## C8: which entry is selected for each key -/

/-- C8 (counterexample): in the blob `sfo_two_content_ids` the entries 1 and 2
both carry the key `CONTENT_ID`, with the values `AAA` and `BBB`, and the
content id `parse_sfo_content` writes is `BBB`, the value of the last of them,
not of the first. -/
theorem first_content_id_not_used :
    get32le sfo_two_content_ids 8 = .ok 68 ∧ get32le sfo_two_content_ids 12 = .ok 96 ∧
      entry_has_key sfo_two_content_ids 68 1 key_CONTENT_ID = true ∧
      sfo_value sfo_two_content_ids 96 1 = .ok [65, 65, 65] ∧
      entry_has_key sfo_two_content_ids 68 2 key_CONTENT_ID = true ∧
      sfo_value sfo_two_content_ids 96 2 = .ok [66, 66, 66] ∧
      parse_sfo_content sfo_two_content_ids sfo_two_content_ids.length true true true true =
        .ok { title := str_Demo, content := some [66, 66, 66], patch := false,
              min_version := none, pkg_version := none, sfo := sfo_two_content_ids } := by
  refine ⟨by decide!, by decide!, by decide!, by decide!, by decide!, by decide!, by decide!⟩

/-- C8 (amended): when the scan of the `count` entries of a blob of at most
16384 bytes ends without a fault, `title_index` is the last entry whose key is
`STITLE` if there is one, and otherwise the first entry whose key is `TITLE`;
and each of `content_index`, `category_index`, `minver_index` and
`pkgver_index` is the last entry whose key is `CONTENT_ID`, `CATEGORY`,
`PSP2_DISP_VER` and `APP_VER` respectively. -/
theorem scan_loop_selection (sfo : List Nat) (sfo_size keys count : Nat) (idx : SfoIndex)
    (hsize : sfo_size ≤ 16384)
    (h : scan_loop sfo sfo_size keys count 0 SfoIndex.init = .ok idx) :
    (∀ j, j < count → entry_has_key sfo keys j key_STITLE = true →
      (∀ k, j < k → k < count → entry_has_key sfo keys k key_STITLE = false) →
      idx.title = (j : Int)) ∧
    ((∀ k, k < count → entry_has_key sfo keys k key_STITLE = false) →
      ∀ j, j < count → entry_has_key sfo keys j key_TITLE = true →
      (∀ k, k < j → entry_has_key sfo keys k key_TITLE = false) →
      idx.title = (j : Int)) ∧
    (∀ j, j < count → entry_has_key sfo keys j key_CONTENT_ID = true →
      (∀ k, j < k → k < count → entry_has_key sfo keys k key_CONTENT_ID = false) →
      idx.content = (j : Int)) ∧
    (∀ j, j < count → entry_has_key sfo keys j key_CATEGORY = true →
      (∀ k, j < k → k < count → entry_has_key sfo keys k key_CATEGORY = false) →
      idx.category = (j : Int)) ∧
    (∀ j, j < count → entry_has_key sfo keys j key_PSP2_DISP_VER = true →
      (∀ k, j < k → k < count → entry_has_key sfo keys k key_PSP2_DISP_VER = false) →
      idx.minver = (j : Int)) ∧
    (∀ j, j < count → entry_has_key sfo keys j key_APP_VER = true →
      (∀ k, j < k → k < count → entry_has_key sfo keys k key_APP_VER = false) →
      idx.pkgver = (j : Int)) := by
  have hcount : count ≤ 1023 := scan_loop_count_le hsize h
  obtain ⟨hA, hB⟩ := scan_loop_title count 0 SfoIndex.init idx (by omega) h
  have hlast : ∀ (proj : SfoIndex → Int) (lit : List Nat),
      (∀ i idx idx1, scan_entry sfo sfo_size keys i idx = .ok idx1 →
        proj idx1 = if entry_has_key sfo keys i lit = true then int_cast i else proj idx) →
      ∀ j, j < count → entry_has_key sfo keys j lit = true →
      (∀ k, j < k → k < count → entry_has_key sfo keys k lit = false) →
      proj idx = (j : Int) := by
    intro proj lit hstep j hj hkey hafter
    have := (scan_loop_last proj lit hstep count 0 SfoIndex.init idx h).2 j (by omega)
      (by omega) hkey (fun k h1 h2 => hafter k h1 (by omega))
    rw [this]
    exact int_cast_small (by omega)
  refine ⟨?_, ?_, ?_, ?_, ?_, ?_⟩
  · intro j hj hkey hafter
    exact hA j (by omega) (by omega) hkey (fun k h1 h2 => hafter k h1 (by omega))
  · intro hnone j hj hkey hbefore
    exact ((hB (fun k _ h2 => hnone k (by omega))).2 (by decide)).2 j (by omega) (by omega) hkey
      (fun k _ h2 => hbefore k h2)
  · exact hlast (fun x => x.content) key_CONTENT_ID (fun i idx idx1 he => scan_entry_content he)
  · exact hlast (fun x => x.category) key_CATEGORY (fun i idx idx1 he => scan_entry_category he)
  · exact hlast (fun x => x.minver) key_PSP2_DISP_VER (fun i idx idx1 he => scan_entry_minver he)
  · exact hlast (fun x => x.pkgver) key_APP_VER (fun i idx idx1 he => scan_entry_pkgver he)

/-- Witness for C8 on the blob `sfo_two_content_ids`: the scan selects entry 2,
the last `CONTENT_ID` entry, and entry 0, the first `TITLE` entry. -/
theorem scan_loop_selection_witness :
    sfo_two_content_ids.length ≤ 16384 ∧
      scan_loop sfo_two_content_ids sfo_two_content_ids.length 68 3 0 SfoIndex.init =
        .ok { title := 0, content := 2, category := -1, minver := -1, pkgver := -1 } ∧
      ({ title := 0, content := 2, category := -1, minver := -1, pkgver := -1 } : SfoIndex).content
        = ((2 : Nat) : Int) ∧
      ({ title := 0, content := 2, category := -1, minver := -1, pkgver := -1 } : SfoIndex).title
        = ((0 : Nat) : Int) :=
  have t := scan_loop_selection sfo_two_content_ids sfo_two_content_ids.length 68 3
    { title := 0, content := 2, category := -1, minver := -1, pkgver := -1 }
    (by decide) (by decide!)
  ⟨by decide, by decide!,
    t.2.2.1 2 (by decide) (by decide!) (fun k h1 h2 => absurd h2 (by omega)),
    t.2.1 (fun k hk => by interval_cases k <;> decide!) 0 (by decide) (by decide!)
      (fun k hk => absurd hk (by omega))⟩

/-! ## C9: the format of the version strings -/

/-- The version blocks as string transforms of the buffer they read: whenever
`parse_sfo_content` returns, with `values` and the index variables as the scan
produced them: if `min_version` is requested and
`minver_index > 0`, then for the NUL-terminated value `v` of that entry, as the
buffer holds it when the parser returns (after the store of line 125), that keeps a character after the
removal of one leading `0`, the string written to `min_version` is `v` with one
leading `0` removed if present and then one trailing `0` removed if present;
and if `pkg_version` is requested and `pkgver_index > 0`, then for the value
`w` of that entry the string written to `pkg_version` is `w` with one leading
`0` removed if present. -/
theorem version_format (sfo : List Nat) (sfo_size values : Nat) (idx : SfoIndex)
    (wp wc wm wv : Bool) (out : SfoOut)
    (hscan : sfo_scan sfo sfo_size = .ok (values, idx))
    (h : parse_sfo_content sfo sfo_size wp wc wm wv = .ok out) :
    (wm = true → 0 < idx.minver → ∀ v, sfo_value out.sfo values idx.minver = .ok v →
        strip_leading_zero v ≠ [] →
        out.min_version = some (strip_trailing_zero (strip_leading_zero v))) ∧
    (wv = true → 0 < idx.pkgver → ∀ w, sfo_value out.sfo values idx.pkgver = .ok w →
        out.pkg_version = some (strip_leading_zero w)) := by
  obtain ⟨cat, -, -, -, -, -, hm, hp⟩ := sfo_extract_stages (parse_sfo_content_stages hscan h)
  constructor
  · intro hwm hpos v hv hne
    unfold sfo_value at hv
    obtain ⟨off, hoff, hv⟩ := bind_eq_ok hv
    simp only [min_version_step, hwm, hpos, and_self, if_true] at hm
    rw [hoff] at hm
    have hb := min_version_block_eq hv hne
    have hm2 : some <$> min_version_block (List.drop off out.sfo) = .ok out.min_version := hm
    rw [hb] at hm2
    exact (Except.ok.inj hm2).symm
  · intro hwv hpos w hw
    unfold sfo_value at hw
    obtain ⟨off, hoff, hw⟩ := bind_eq_ok hw
    simp only [pkg_version_step, hwv, hpos, and_self, if_true] at hp
    rw [hoff] at hp
    have hb := pkg_version_block_eq hw
    have hp2 : some <$> pkg_version_block (List.drop off out.sfo) = .ok out.pkg_version := hp
    rw [hb] at hp2
    exact (Except.ok.inj hp2).symm

/-- An instance of `version_format`: in a blob with `TITLE`, `APP_VER` =
`01.00` and `PSP2_DISP_VER` = `03.610`, the strings written are `3.61` and
`1.00`. -/
theorem version_format_witness :
    (some [51, 46, 54, 49] : Option (List Nat)) =
        some (strip_trailing_zero (strip_leading_zero [48, 51, 46, 54, 49, 48])) ∧
      (some [49, 46, 48, 48] : Option (List Nat)) =
        some (strip_leading_zero [48, 49, 46, 48, 48]) :=
  have t := version_format sfo_versions sfo_versions.length 96
    { title := 0, content := -1, category := -1, minver := 2, pkgver := 1 }
    true true true true
    { title := str_Demo, content := none, patch := false,
      min_version := some [51, 46, 54, 49], pkg_version := some [49, 46, 48, 48],
      sfo := sfo_versions }
    (by decide!) (by decide!)
  ⟨t.1 rfl (by decide) [48, 51, 46, 54, 49, 48] (by decide!) (by decide),
    t.2 rfl (by decide) [48, 49, 46, 48, 48] (by decide!)⟩

/-- The store of line 125 at the end of the bytes read: in a packed blob of 75
bytes whose last value is the category `gp`, the store lands at index 75 of the
16 KiB array, the parser returns, and the byte is determined from then on. -/
theorem category_store_after_blob :
    (make_sfo_packed [(key_TITLE, str_Demo), (key_CATEGORY, lit_gp)]).length = 75 ∧
      parse_sfo_content (make_sfo_packed [(key_TITLE, str_Demo), (key_CATEGORY, lit_gp)]) 75
          true true true true =
        .ok { title := [68, 101, 109, 111], content := none, patch := true, min_version := none,
              pkg_version := none,
              sfo := make_sfo_packed [(key_TITLE, str_Demo), (key_CATEGORY, lit_gp)] ++ [0] } := by
  refine ⟨by decide!, by decide!⟩

/-- C9 (the code departs from the claim): in the blob `sfo_packed_category` the
entries are `TITLE` = `Demo`, `CATEGORY` = `gp` and `APP_VER` = `01.00`, with
the values packed, so that the value of `APP_VER` starts at offset 99, the byte
after the NUL of the category. The category block leaves `value` one past that
NUL and line 125 stores a NUL there, over the `0` of `01.00`; the
package-version block then finds an empty string, and `pkg_version` is empty
instead of `1.00`. -/
theorem category_store_clears_version :
    sfo_packed_category.length = 105 ∧
      sfo_scan sfo_packed_category 105 =
        .ok (91, { title := 0, content := -1, category := 1, minver := -1, pkgver := 2 }) ∧
      value_offset sfo_packed_category 91 1 = .ok 96 ∧
      value_offset sfo_packed_category 91 2 = .ok 99 ∧
      sfo_value sfo_packed_category 91 1 = .ok [103, 112] ∧
      sfo_value sfo_packed_category 91 2 = .ok [48, 49, 46, 48, 48] ∧
      strip_leading_zero [48, 49, 46, 48, 48] = [49, 46, 48, 48] ∧
      category_block sfo_packed_category 96 = .ok (sfo_packed_category.set 99 0, true) ∧
      parse_sfo_content sfo_packed_category 105 true true true true =
        .ok { title := [68, 101, 109, 111], content := none, patch := true, min_version := none,
              pkg_version := some [], sfo := sfo_packed_category.set 99 0 } ∧
      (some [] : Option (List Nat)) ≠ some (strip_leading_zero [48, 49, 46, 48, 48]) := by
  refine ⟨by decide!, by decide!, by decide!, by decide!, by decide!, by decide!, by decide!,
    by decide!, by decide!, by decide!⟩

/-! ## C10: license validation -/

/-- C10 (counterexample): with the content id `A` and a decoded blob whose bytes
from 0x10 on are `A`, NUL, `B`, the 48 bytes at 0x10 to 0x3F differ from the
content id padded with zeros to 48 bytes, and yet the license check does not end
the run: the comparison stops at the NUL common to both. -/
theorem license_check_ignores_bytes_after_nul :
    rif_after_nul.length = 512 ∧
      (rif_after_nul.drop 0x10).take 0x30 ≠ [65] ++ List.replicate 47 0 ∧
      license_check (fun _ => .ok rif_after_nul) (some []) false (some [65]) =
        .ok (some rif_after_nul) := by
  refine ⟨by decide!, by decide!, by decide!⟩

/-- C10 (amended): for a package outside the PSP family whose metadata was
parsed and whose strings lie inside the arrays of `main`, (1) when a token is supplied, the package is not a patch, a content id
was extracted and the decoder returns a blob of at least 0x40 bytes, the run
ends with the content-mismatch error if and only if the NUL-terminated strings
at offset 0x10 of the blob and in the content id differ within their first 48
characters, and otherwise it continues with the decoded blob; (2) when no token
is supplied or the package is a patch, the run continues without a blob,
whatever the decoder does. (3) For a package of the PSP family the outcome
depends neither on the token nor on the decoder, and no blob is held. -/
theorem license_validation (ctr : List Nat → List Nat → Nat → List Nat → List Nat)
    (zrif_decode : List Nat → Except Fault (List Nat)) (zip_max_filename : Nat)
    (keys : Keys) (pkg : List Nat) (hdr : PkgHeader)
    (content_type sfo_offset sfo_size items_offset : Nat) :
    (∀ out token rif c, is_psp content_type = false →
      parse_sfo pkg sfo_offset sfo_size = .ok out →
      buffers_hold (some out.title) out.content out.min_version out.pkg_version = true →
      out.patch = false →
      out.content = some c → zrif_decode token = .ok rif → 0x40 ≤ rif.length →
      (main_metadata ctr zrif_decode zip_max_filename keys pkg hdr content_type sfo_offset
          sfo_size items_offset (some token) = .error .zrif_mismatch ↔
        c_string_chars (rif.drop 0x10) 0x30 ≠ c_string_chars c 0x30) ∧
      (c_string_chars (rif.drop 0x10) 0x30 = c_string_chars c 0x30 →
        main_metadata ctr zrif_decode zip_max_filename keys pkg hdr content_type sfo_offset
          sfo_size items_offset (some token) =
          .ok { title := some out.title, content := out.content, patch := out.patch,
                min_version := out.min_version, pkg_version := out.pkg_version,
                rif := some rif })) ∧
    (∀ out argv2, is_psp content_type = false →
      parse_sfo pkg sfo_offset sfo_size = .ok out →
      buffers_hold (some out.title) out.content out.min_version out.pkg_version = true →
      (argv2 = none ∨ out.patch = true) →
      main_metadata ctr zrif_decode zip_max_filename keys pkg hdr content_type sfo_offset
          sfo_size items_offset argv2 =
        .ok { title := some out.title, content := out.content, patch := out.patch,
              min_version := out.min_version, pkg_version := out.pkg_version,
              rif := none }) ∧
    (∀ argv2 other_decode other_argv2, is_psp content_type = true →
      main_metadata ctr zrif_decode zip_max_filename keys pkg hdr content_type sfo_offset
          sfo_size items_offset argv2 =
        main_metadata ctr other_decode zip_max_filename keys pkg hdr content_type sfo_offset
          sfo_size items_offset other_argv2 ∧
      ∀ m, main_metadata ctr zrif_decode zip_max_filename keys pkg hdr content_type sfo_offset
          sfo_size items_offset argv2 = .ok m → m.rif = none) := by
  refine ⟨?_, ?_, ?_⟩
  · intro out token rif c hpsp hparse hfit hpatch hcontent hdec hlen
    have hl := license_check_spec zrif_decode token rif c hdec hlen
    rw [main_metadata_fit hpsp hparse hfit]
    simp only [bind, Except.bind, hpatch, hcontent, hl]
    by_cases hp : c_string_chars (rif.drop 0x10) 0x30 = c_string_chars c 0x30
    · simp only [hp, ne_eq, not_true_eq_false, if_false]
      exact ⟨⟨fun h => Except.noConfusion h, fun h => h.elim⟩, fun _ => rfl⟩
    · simp only [ne_eq, hp, not_false_eq_true, if_true]
      exact ⟨trivial, fun h => h.elim⟩
  · intro out argv2 hpsp hparse hfit hcase
    have hl : license_check zrif_decode argv2 out.patch out.content = .ok none := by
      rcases hcase with h | h
      · subst h
        rfl
      · cases argv2 with
        | none => rfl
        | some token => simp [license_check, h]; rfl
    rw [main_metadata_fit hpsp hparse hfit]
    simp only [bind, Except.bind, hl]
    rfl
  · intro argv2 other_decode other_argv2 hpsp
    constructor
    · simp only [main_metadata, hpsp, if_true]
    · intro m hm
      simp only [main_metadata, hpsp, if_true] at hm
      obtain ⟨t, -, ht⟩ := bind_eq_ok hm
      by_cases hfit : buffers_hold t none none none = false
      · rw [if_pos hfit] at ht
        exact Except.noConfusion ht
      · rw [if_neg hfit] at ht
        have := Except.ok.inj ht
        rw [← this]

/-- Witness for C10: the blob `sfo_two_content_ids` read as the whole container
gives the content id `BBB`; with a token decoded to `rif_after_nul`, whose
content id field holds `A`, the run ends with the content-mismatch error. -/
theorem license_validation_witness :
    main_metadata (fun _ _ _ buf => buf) (fun _ => .ok rif_after_nul) 256
        (derive_keys toy_ecb (make_header 256 0 1 4096 1024 2048 [] 2)) sfo_two_content_ids
        { meta_offset := 256, meta_count := 0, item_count := 1, total_size := 4096,
          enc_offset := 1024, enc_size := 2048, iv := List.replicate 16 0, key_type := 2 }
        0 0 sfo_two_content_ids.length 0 (some []) = .error .zrif_mismatch :=
  ((license_validation (fun _ _ _ buf => buf) (fun _ => .ok rif_after_nul) 256
      (derive_keys toy_ecb (make_header 256 0 1 4096 1024 2048 [] 2)) sfo_two_content_ids
      { meta_offset := 256, meta_count := 0, item_count := 1, total_size := 4096,
        enc_offset := 1024, enc_size := 2048, iv := List.replicate 16 0, key_type := 2 }
      0 0 sfo_two_content_ids.length 0).1
    { title := str_Demo, content := some [66, 66, 66], patch := false, min_version := none,
      pkg_version := none, sfo := sfo_two_content_ids }
    [] rif_after_nul [66, 66, 66] (by decide) (by decide!) (by decide!) rfl rfl rfl
    (by decide!)).1.2
    (by decide!)

/-! ## C11: the name of the archive of an Application package -/

/-- C11 (counterexample): for the Application container with `TITLE` = `Demo`
and `CONTENT_ID` = `PCSE00001234567` the archive is named
`Demo [01234567] [unknown region].zip`, not `Demo [PCSE00001] [USA].zip`: the id
printed and resolved is the string at `content + 7`. -/
theorem short_content_id_archive_name :
    sfo_scan (make_sfo [(key_TITLE, str_Demo), (key_CONTENT_ID, str_short_id)]) 92 =
        .ok (69, { title := 0, content := 1, category := -1, minver := -1, pkgver := -1 }) ∧
      sfo_value (make_sfo [(key_TITLE, str_Demo), (key_CONTENT_ID, str_short_id)]) 69 1 =
        .ok str_short_id ∧
      (fun a => a.name) <$> main toy_ecb plain_ctr no_decode 1024 (pkg_app 1 str_short_id) none =
        .ok [68, 101, 109, 111, 32, 91, 48, 49, 50, 51, 52, 53, 54, 55, 93, 32, 91, 117, 110,
          107, 110, 111, 119, 110, 32, 114, 101, 103, 105, 111, 110, 93, 46, 122, 105, 112] ∧
      ([68, 101, 109, 111, 32, 91, 80, 67, 83, 69, 48, 48, 48, 48, 49, 93, 32, 91, 85, 83, 65, 93,
          46, 122, 105, 112] : List Nat) ≠
        [68, 101, 109, 111, 32, 91, 48, 49, 50, 51, 52, 53, 54, 55, 93, 32, 91, 117, 110,
          107, 110, 111, 119, 110, 32, 114, 101, 103, 105, 111, 110, 93, 46, 122, 105, 112] := by
  refine ⟨by decide!, by decide!, by decide!, by decide!⟩

/-- A title that does not fit its array: for the blob `sfo_long_title` the parser
writes 256 characters, the terminating NUL lands past `char title[256]`, and
the metadata step of `main` has no defined result. -/
theorem long_title_leaves_array :
    (fun o => o.title.length) <$> parse_sfo sfo_long_title 0 sfo_long_title.length = .ok 256 ∧
      main_metadata plain_ctr no_decode 1024
          (derive_keys toy_ecb (make_header 256 0 1 4096 1024 2048 [] 2)) sfo_long_title
          { meta_offset := 256, meta_count := 0, item_count := 1, total_size := 4096,
            enc_offset := 1024, enc_size := 2048, iv := List.replicate 16 0, key_type := 2 }
          0x15 0 sfo_long_title.length 0 none = .error .undefined_access := by
  refine ⟨by decide!, by decide!⟩

/-- C11 (amended): for a package that is neither of the PSP family (content
type 6, 7 or 0xF) nor DLC (content type 0x16) nor a patch, (1) whenever the
parser returns a content id of at least 7 characters, the strings it wrote lie
inside the 256-byte arrays of `main` (so the title has at most 255 characters)
and the license check passes, the metadata step returns and the name of the
archive is produced: it is the title, ` [`, the up to 9 characters of the
content id from its character 7 on, `] [`, the region `get_region` resolves for
the string at character 7 of the content id, and `].zip`, where for a content
id of at least 11 characters that region is the region of its 4 characters 7
to 10; (2) whenever a run of `main` returns, its archive has that name, with a
title of at most 255 and a content id of 7 to 255 characters. -/
theorem archive_name_application (ecb : List Nat → List Nat → List Nat)
    (ctr : List Nat → List Nat → Nat → List Nat → List Nat)
    (zrif_decode : List Nat → Except Fault (List Nat)) (zip_max_filename : Nat)
    (pkg : List Nat) (argv2 : Option (List Nat)) :
    (∀ (keys : Keys) (hdr : PkgHeader) (pkg_header : List Nat)
      (content_type sfo_offset sfo_size items_offset : Nat) (out : SfoOut) (c : List Nat),
      content_type ≠ 6 → content_type ≠ 7 → content_type ≠ 0xf → content_type ≠ 0x16 →
      parse_sfo pkg sfo_offset sfo_size = .ok out → out.patch = false →
      out.content = some c → 7 ≤ c.length →
      buffers_hold (some out.title) out.content out.min_version out.pkg_version = true →
      (argv2 = none ∨ ∃ rif, license_check zrif_decode argv2 false (some c) = .ok rif) →
      ∃ md r, main_metadata ctr zrif_decode zip_max_filename keys pkg hdr content_type sfo_offset
            sfo_size items_offset argv2 = .ok md ∧
        get_region (c.drop 7 ++ [0]) = .ok r ∧
        (11 ≤ c.length → get_region ((c.drop 7).take 4) = .ok r) ∧
        archive_name pkg_header content_type md =
          .ok (out.title ++ [32, 91] ++ (c.drop 7).take 9 ++ [93, 32, 91] ++ r
            ++ [93, 46, 122, 105, 112])) ∧
    (∀ name,
      (fun a => a.name) <$> main ecb ctr zrif_decode zip_max_filename pkg argv2 = .ok name →
      ∃ pkg_header hdr blocks,
        sys_read pkg 0 256 = .ok pkg_header ∧
        validate_header pkg.length pkg_header = .ok hdr ∧
        scan_meta pkg hdr.meta_count hdr.meta_offset MetaBlocks.init = .ok blocks ∧
        (blocks.content_type ≠ 6 → blocks.content_type ≠ 7 → blocks.content_type ≠ 0xf →
          blocks.content_type ≠ 0x16 →
          ∃ out, parse_sfo pkg blocks.sfo_offset blocks.sfo_size = .ok out ∧
            out.title.length ≤ 255 ∧
            (out.patch = false →
              ∃ c r, out.content = some c ∧ 7 ≤ c.length ∧ c.length ≤ 255 ∧
                get_region (c.drop 7 ++ [0]) = .ok r ∧
                (11 ≤ c.length → get_region ((c.drop 7).take 4) = .ok r) ∧
                name = out.title ++ [32, 91] ++ (c.drop 7).take 9 ++ [93, 32, 91] ++ r
                  ++ [93, 46, 122, 105, 112]))) := by
  constructor
  · intro keys hdr pkg_header content_type sfo_offset sfo_size items_offset out c n6 n7 nf n16
      hparse hpatch hcontent hcl hfit hlic
    have hpsp : is_psp content_type = false := by
      simp [is_psp, n6, n7, nf]
    have htl : out.title.length ≤ 255 := by
      simp only [buffers_hold, fits, Bool.and_eq_true, decide_eq_true_eq] at hfit
      omega
    have hl : ∃ rif, license_check zrif_decode argv2 out.patch out.content = .ok rif := by
      rw [hpatch, hcontent]
      rcases hlic with h | h
      · subst h
        exact ⟨none, rfl⟩
      · exact h
    obtain ⟨rif, hrif⟩ := hl
    have hmd : main_metadata ctr zrif_decode zip_max_filename keys pkg hdr content_type
        sfo_offset sfo_size items_offset argv2 = _ := main_metadata_fit hpsp hparse hfit
    simp only [hrif, bind, Except.bind] at hmd
    obtain ⟨r, hr, hr4, hname⟩ := archive_name_of_metadata pkg_header content_type
      { title := some out.title, content := out.content, patch := out.patch,
        min_version := out.min_version, pkg_version := out.pkg_version, rif := rif }
      out.title c n6 n7 nf n16 hpatch rfl hcontent htl hcl
    exact ⟨_, r, hmd, hr, hr4, hname⟩
  · intro name h
    obtain ⟨a, hmain, hname⟩ := map_eq_ok h
    subst hname
    obtain ⟨pkg_header, hdr, blocks, md, folders, root, items, trailer, h1, h2, h3, h4, h5, -, -,
      -, -, -⟩ := main_stages hmain
    refine ⟨pkg_header, hdr, blocks, h1, h2, h3, ?_⟩
    intro n6 n7 nf n16
    have hpsp : is_psp blocks.content_type = false := by
      simp [is_psp, n6, n7, nf]
    have hdlc : is_dlc blocks.content_type = false := by
      simp [is_dlc, n16]
    obtain ⟨out, hparse, hfit, mt, mc, mp, -, -⟩ := main_metadata_parsed hpsp h4
    have hfit2 : out.title.length < 256 ∧ fits 256 out.content = true := by
      simp only [buffers_hold, fits, Bool.and_eq_true, decide_eq_true_eq] at hfit
      exact ⟨hfit.1.1.1, hfit.1.1.2⟩
    refine ⟨out, hparse, by omega, ?_⟩
    intro hpatch
    rw [← mp] at hpatch
    cases hc : out.content with
    | none =>
      simp only [archive_name, hpsp, hdlc, hpatch, Bool.false_eq_true, if_false, mt, mc, hc,
        use_buffer, content_from, bind, Except.bind] at h5
      exact Except.noConfusion h5
    | some c =>
      have hcfit : c.length < 256 := by
        have := hfit2.2
        rw [hc] at this
        simpa [fits] using this
      by_cases h7 : 7 ≤ c.length
      · obtain ⟨r, hr, hr4, hname⟩ := archive_name_of_metadata pkg_header blocks.content_type md
          out.title c n6 n7 nf n16 hpatch mt (mc.trans hc) (by omega) h7
        rw [hname] at h5
        exact ⟨c, r, rfl, h7, by omega, hr, hr4, (Except.ok.inj h5).symm⟩
      · simp only [archive_name, hpsp, hdlc, hpatch, Bool.false_eq_true, if_false, mt, mc, hc,
          use_buffer, content_from, bind, Except.bind, if_neg h7] at h5
        exact Except.noConfusion h5

/-- Witness for C11: with `TITLE` = `Demo` and `CONTENT_ID` =
`UP0000-PCSE00001_00-0000000000000000` the metadata step and the run of `main`
name the archive `Demo [PCSE00001] [USA].zip`. -/
theorem archive_name_application_witness :
    (∃ md r, main_metadata plain_ctr no_decode 1024
          (derive_keys toy_ecb ((pkg_app 1 str_content_id).take 256)) (pkg_app 1 str_content_id)
          { meta_offset := 256, meta_count := 3, item_count := 1, total_size := 472,
            enc_offset := 416, enc_size := 53, iv := List.replicate 16 0, key_type := 1 }
          0x15 300 113 0 none = .ok md ∧
        get_region (str_content_id.drop 7 ++ [0]) = .ok r ∧
        (11 ≤ str_content_id.length → get_region ((str_content_id.drop 7).take 4) = .ok r) ∧
        archive_name ((pkg_app 1 str_content_id).take 256) 0x15 md =
          .ok (str_Demo ++ [32, 91] ++ (str_content_id.drop 7).take 9 ++ [93, 32, 91] ++ r
            ++ [93, 46, 122, 105, 112])) ∧
    (fun a => a.name) <$> main toy_ecb plain_ctr no_decode 1024 (pkg_app 1 str_content_id) none =
      .ok [68, 101, 109, 111, 32, 91, 80, 67, 83, 69, 48, 48, 48, 48, 49, 93, 32, 91, 85, 83, 65,
        93, 46, 122, 105, 112] ∧
    (∃ pkg_header hdr blocks,
      sys_read (pkg_app 1 str_content_id) 0 256 = .ok pkg_header ∧
      validate_header (pkg_app 1 str_content_id).length pkg_header = .ok hdr ∧
      scan_meta (pkg_app 1 str_content_id) hdr.meta_count hdr.meta_offset MetaBlocks.init =
        .ok blocks ∧
      (blocks.content_type ≠ 6 → blocks.content_type ≠ 7 → blocks.content_type ≠ 0xf →
        blocks.content_type ≠ 0x16 →
        ∃ out, parse_sfo (pkg_app 1 str_content_id) blocks.sfo_offset blocks.sfo_size = .ok out ∧
          out.title.length ≤ 255 ∧
          (out.patch = false →
            ∃ c r, out.content = some c ∧ 7 ≤ c.length ∧ c.length ≤ 255 ∧
              get_region (c.drop 7 ++ [0]) = .ok r ∧
              (11 ≤ c.length → get_region ((c.drop 7).take 4) = .ok r) ∧
              [68, 101, 109, 111, 32, 91, 80, 67, 83, 69, 48, 48, 48, 48, 49, 93, 32, 91, 85, 83,
                  65, 93, 46, 122, 105, 112] =
                out.title ++ [32, 91] ++ (c.drop 7).take 9 ++ [93, 32, 91] ++ r
                  ++ [93, 46, 122, 105, 112]))) :=
  ⟨(archive_name_application toy_ecb plain_ctr no_decode 1024 (pkg_app 1 str_content_id) none).1
      (derive_keys toy_ecb ((pkg_app 1 str_content_id).take 256))
      { meta_offset := 256, meta_count := 3, item_count := 1, total_size := 472,
        enc_offset := 416, enc_size := 53, iv := List.replicate 16 0, key_type := 1 }
      ((pkg_app 1 str_content_id).take 256) 0x15 300 113 0
      { title := str_Demo, content := some str_content_id, patch := false, min_version := none,
        pkg_version := none, sfo := ((pkg_app 1 str_content_id).drop 300).take 113 }
      str_content_id (by decide) (by decide) (by decide) (by decide) (by decide!) rfl rfl
      (by decide) (by decide!) (Or.inl rfl),
    by decide!,
    (archive_name_application toy_ecb plain_ctr no_decode 1024 (pkg_app 1 str_content_id) none).2
      [68, 101, 109, 111, 32, 91, 80, 67, 83, 69, 48, 48, 48, 48, 49, 93, 32, 91, 85, 83, 65, 93,
        46, 122, 105, 112]
      (by decide!)⟩

/-! ## C12: the entries of the unpack pipeline -/

/-- C13 (counterexample): the container `pkg_big_items_size` passes header
validation, is not of the PSP family, and its one item is written; its type-13
block declares an item table of 4096 bytes, so `head.bin` would have to hold
the bytes 0 to 4511 of a container of 472 bytes, and the run ends in the reader
instead of appending the trailer files. -/
theorem oversized_item_table :
    validate_header pkg_big_items_size.length (pkg_big_items_size.take 256) =
        .ok { meta_offset := 256, meta_count := 3, item_count := 1, total_size := 472,
              enc_offset := 416, enc_size := 53, iv := List.replicate 16 0, key_type := 1 } ∧
      scan_meta pkg_big_items_size 3 256 MetaBlocks.init =
        .ok { content_type := 0x15, sfo_offset := 300, sfo_size := 113, items_offset := 0,
              items_size := 4096 } ∧
      item_loop plain_ctr 1024 (derive_keys toy_ecb (pkg_big_items_size.take 256))
          (List.replicate 16 0) pkg_big_items_size 416 0 false
          [97, 112, 112, 47, 80, 67, 83, 69, 48, 48, 48, 48, 49] 1 0 =
        .ok [.file [97, 112, 112, 47, 80, 67, 83, 69, 48, 48, 48, 48, 49, 47, 101, 98, 111, 111,
          116, 46, 98, 105, 110] [[1, 2, 3, 4, 5]]] ∧
      pkg_big_items_size.length = 472 ∧
      main toy_ecb plain_ctr no_decode 1024 pkg_big_items_size none = .error .collaborator := by
  refine ⟨by decide!, by decide!, by decide!, by decide!, by decide!⟩

/-- C13 (amended): for a package outside the PSP family with
`enc_offset + items_size` and `enc_offset + enc_size` at most the container
size, a root of at most 63 characters, and a decoded license blob whenever a
token was supplied and the package is not a patch, the trailer step returns, in
this order, `<root>/sce_sys/package/head.bin` with exactly the container bytes
from 0 to `enc_offset + items_size`, `tail.bin` with exactly the bytes from
`enc_offset + enc_size` to the end, `stat.bin` with 768 zero bytes, and
`work.bin` with the decoded blob if and only if a token was supplied and the
package is not a patch; for a package of the PSP family it returns no entry;
the root `main` computes has at most 63 characters. -/
theorem trailer_synthesis (pkg : List Nat) (hdr : PkgHeader) (items_size : Nat) (patch : Bool)
    (root : List Nat) (argv2 rif : Option (List Nat)) :
    (pkg.length < 2 ^ 64 → hdr.enc_offset + items_size ≤ pkg.length →
      hdr.enc_offset + hdr.enc_size ≤ pkg.length → root.length ≤ 63 →
      (patch = false → argv2.isSome = true → rif.isSome = true) →
      ∃ head tail,
        trailer_files pkg hdr items_size false patch root argv2 rif =
          .ok ([.file (root ++ lit_head_bin) head, .file (root ++ lit_tail_bin) tail,
                .file (root ++ lit_stat_bin) [List.replicate 768 0]]
            ++ if patch = false ∧ argv2.isSome = true then
                [.file (root ++ lit_work_bin) [rif.getD []]]
              else []) ∧
        head.flatten = pkg.take (hdr.enc_offset + items_size) ∧
        tail.flatten = pkg.drop (hdr.enc_offset + hdr.enc_size)) ∧
    trailer_files pkg hdr items_size true patch root argv2 rif = .ok [] ∧
    (∀ content_type md r, root_path content_type md = .ok r → r.length ≤ 63) := by
  refine ⟨?_, rfl, fun _ _ _ h => root_path_length h⟩
  intro hsize hhead htail hroot hrif
  have hm1 : (hdr.enc_offset + items_size) % 2 ^ 64 = hdr.enc_offset + items_size :=
    Nat.mod_eq_of_lt (by omega)
  have hm2 : (hdr.enc_offset + hdr.enc_size) % 2 ^ 64 = hdr.enc_offset + hdr.enc_size :=
    Nat.mod_eq_of_lt (by omega)
  have hf1 : hdr.enc_offset + items_size ≤
      ((hdr.enc_offset + items_size) / 2 ^ 16 + 1) * 2 ^ 16 := by
    have := Nat.lt_div_mul_add (a := hdr.enc_offset + items_size) (b := 2 ^ 16) (by norm_num)
    omega
  have hf2 : pkg.length - (hdr.enc_offset + hdr.enc_size) ≤
      (pkg.length / 2 ^ 16 + 1) * 2 ^ 16 := by
    have := Nat.lt_div_mul_add (a := pkg.length) (b := 2 ^ 16) (by norm_num)
    omega
  obtain ⟨head, hh, hhj⟩ := head_loop_join pkg hsize _ (hdr.enc_offset + items_size) 0 hf1
    (by omega)
  obtain ⟨tail, ht, htj⟩ := tail_loop_join pkg hsize _ (hdr.enc_offset + hdr.enc_size) hf2 htail
  have hc1 : snprintf_cut 1024 (root ++ lit_head_bin) = root ++ lit_head_bin :=
    snprintf_cut_of_le (by
      have : lit_head_bin.length = 25 := rfl
      rw [List.length_append]
      omega)
  have hc2 : snprintf_cut 1024 (root ++ lit_tail_bin) = root ++ lit_tail_bin :=
    snprintf_cut_of_le (by
      have : lit_tail_bin.length = 25 := rfl
      rw [List.length_append]
      omega)
  have hc3 : snprintf_cut 1024 (root ++ lit_stat_bin) = root ++ lit_stat_bin :=
    snprintf_cut_of_le (by
      have : lit_stat_bin.length = 25 := rfl
      rw [List.length_append]
      omega)
  have hc4 : snprintf_cut 1024 (root ++ lit_work_bin) = root ++ lit_work_bin :=
    snprintf_cut_of_le (by
      have : lit_work_bin.length = 25 := rfl
      rw [List.length_append]
      omega)
  refine ⟨head, tail, ?_, by simpa using hhj, htj⟩
  simp only [trailer_files, Bool.false_eq_true, if_false, hm1, hm2, hh, ht, bind, Except.bind,
    hc1, hc2, hc3, hc4]
  by_cases hw : patch = false ∧ argv2.isSome = true
  · obtain ⟨r, hr⟩ := Option.isSome_iff_exists.1 (hrif hw.1 hw.2)
    rw [if_pos hw, if_pos hw, hr]
    rfl
  · rw [if_neg hw, if_neg hw]
    rfl

/-- Witness for C13: the trailer step on the container
`pkg_app 1 str_content_id` with the root `a` and no token. -/
theorem trailer_synthesis_witness :
    trailer_files (pkg_app 1 str_content_id)
        { meta_offset := 256, meta_count := 3, item_count := 1, total_size := 472,
          enc_offset := 416, enc_size := 53, iv := List.replicate 16 0, key_type := 1 }
        32 false false [97] none none =
      .ok [.file ([97] ++ lit_head_bin) [(pkg_app 1 str_content_id).take 448],
        .file ([97] ++ lit_tail_bin) [[9, 9, 9]],
        .file ([97] ++ lit_stat_bin) [List.replicate 768 0]] ∧
    ∃ head tail,
      trailer_files (pkg_app 1 str_content_id)
          { meta_offset := 256, meta_count := 3, item_count := 1, total_size := 472,
            enc_offset := 416, enc_size := 53, iv := List.replicate 16 0, key_type := 1 }
          32 false false [97] none none =
        .ok ([.file ([97] ++ lit_head_bin) head, .file ([97] ++ lit_tail_bin) tail,
              .file ([97] ++ lit_stat_bin) [List.replicate 768 0]]
          ++ if false = false ∧ (none : Option (List Nat)).isSome = true then
              [.file ([97] ++ lit_work_bin) [(none : Option (List Nat)).getD []]]
            else []) ∧
      head.flatten = (pkg_app 1 str_content_id).take (416 + 32) ∧
      tail.flatten = (pkg_app 1 str_content_id).drop (416 + 53) :=
  ⟨by decide!,
    (trailer_synthesis (pkg_app 1 str_content_id)
      { meta_offset := 256, meta_count := 3, item_count := 1, total_size := 472,
        enc_offset := 416, enc_size := 53, iv := List.replicate 16 0, key_type := 1 }
      32 false [97] none none).1 (by decide!) (by decide!) (by decide!) (by decide)
      (fun _ h => by cases h)⟩

/-! ## C14: the archive of a PSP-family package -/

/-- C15: for every argument of at least 4 bytes `get_region` returns a result:
`USA` exactly for the prefixes `PCSE` and `PCSA`, `EUR` exactly for `PCSF` and
`PCSB`, `JPN` exactly for `PCSC`, `VCJS`, `PCSG`, `VLJS` and `VLJM`, `ASA`
exactly for `VCAS`, `PCSH`, `VLAS` and `PCSD`, and `unknown region` exactly for
every other prefix; two arguments that agree on their first 4 bytes get the same
result. The prefixes and tags are written as their ASCII codes. -/
theorem get_region_spec (id : List Nat) (h : 4 ≤ id.length) :
    (∃ r, get_region id = .ok r) ∧
    (get_region id = .ok [85, 83, 65] ↔
      id.take 4 = [80, 67, 83, 69] ∨ id.take 4 = [80, 67, 83, 65]) ∧
    (get_region id = .ok [69, 85, 82] ↔
      id.take 4 = [80, 67, 83, 70] ∨ id.take 4 = [80, 67, 83, 66]) ∧
    (get_region id = .ok [74, 80, 78] ↔
      id.take 4 = [80, 67, 83, 67] ∨ id.take 4 = [86, 67, 74, 83] ∨
        id.take 4 = [80, 67, 83, 71] ∨ id.take 4 = [86, 76, 74, 83] ∨
        id.take 4 = [86, 76, 74, 77]) ∧
    (get_region id = .ok [65, 83, 65] ↔
      id.take 4 = [86, 67, 65, 83] ∨ id.take 4 = [80, 67, 83, 72] ∨
        id.take 4 = [86, 76, 65, 83] ∨ id.take 4 = [80, 67, 83, 68]) ∧
    (get_region id = .ok [117, 110, 107, 110, 111, 119, 110, 32, 114, 101, 103, 105, 111, 110] ↔
      id.take 4 ∉ [[80, 67, 83, 69], [80, 67, 83, 65], [80, 67, 83, 70], [80, 67, 83, 66],
        [80, 67, 83, 67], [86, 67, 74, 83], [80, 67, 83, 71], [86, 76, 74, 83], [86, 76, 74, 77],
        [86, 67, 65, 83], [80, 67, 83, 72], [86, 76, 65, 83], [80, 67, 83, 68]]) ∧
    (∀ other : List Nat, 4 ≤ other.length → other.take 4 = id.take 4 →
      get_region other = get_region id) := by
  obtain ⟨t0, t1, t2, t3, t4, t5, t6⟩ := get_region_table id h
  refine ⟨⟨_, t0⟩, ?_, ?_, ?_, ?_, ?_, t6⟩
  · simpa only [region_USA, ids_USA, List.mem_cons, List.mem_singleton, List.not_mem_nil,
      or_false] using t1
  · simpa only [region_EUR, ids_EUR, List.mem_cons, List.mem_singleton, List.not_mem_nil,
      or_false] using t2
  · simpa only [region_JPN, ids_JPN, List.mem_cons, List.mem_singleton, List.not_mem_nil,
      or_false] using t3
  · simpa only [region_ASA, ids_ASA, List.mem_cons, List.mem_singleton, List.not_mem_nil,
      or_false] using t4
  · rw [show get_region id =
        .ok [117, 110, 107, 110, 111, 119, 110, 32, 114, 101, 103, 105, 111, 110] ↔
        get_region id = .ok region_unknown from Iff.rfl, t5]
    simp only [ids_USA, ids_EUR, ids_JPN, ids_ASA, List.mem_cons, List.mem_singleton,
      List.not_mem_nil, or_false, not_or]
    tauto

/-- Witness for C15 on the arguments `PCSE00001`, `PCSB00001`, `VLJM00001`,
`PCSD00001` and `NPXS00001`: the regions are `USA`, `EUR`, `JPN`, `ASA` and
`unknown region`. -/
theorem get_region_spec_witness :
    get_region [80, 67, 83, 69, 48, 48, 48, 48, 49] = .ok [85, 83, 65] ∧
      get_region [80, 67, 83, 66, 48, 48, 48, 48, 49] = .ok [69, 85, 82] ∧
      get_region [86, 76, 74, 77, 48, 48, 48, 48, 49] = .ok [74, 80, 78] ∧
      get_region [80, 67, 83, 68, 48, 48, 48, 48, 49] = .ok [65, 83, 65] ∧
      get_region [78, 80, 88, 83, 48, 48, 48, 48, 49] =
        .ok [117, 110, 107, 110, 111, 119, 110, 32, 114, 101, 103, 105, 111, 110] :=
  ⟨(get_region_spec [80, 67, 83, 69, 48, 48, 48, 48, 49] (by decide)).2.1.2 (by decide),
    (get_region_spec [80, 67, 83, 66, 48, 48, 48, 48, 49] (by decide)).2.2.1.2 (by decide),
    (get_region_spec [86, 76, 74, 77, 48, 48, 48, 48, 49] (by decide)).2.2.2.1.2 (by decide),
    (get_region_spec [80, 67, 83, 68, 48, 48, 48, 48, 49] (by decide)).2.2.2.2.1.2 (by decide),
    (get_region_spec [78, 80, 88, 83, 48, 48, 48, 48, 49] (by decide)).2.2.2.2.2.1.2
      (by decide)⟩

/-! ## C16: the reads of the metadata block scanner -/

/-- C17: assume that the counter-mode call at block counter `c` XORs byte `j`
of its buffer with byte `16 * c + j` of the keystream of key and
initialization vector. Then for every file item (flags neither 4 nor 18) with
`data_offset` a multiple of 16 and its data span inside a container of less
than `2^64` bytes, the chunk loop returns, the chunks it writes have
`data_size` bytes in total, and their concatenation is the counter-mode XOR of
the whole span at block counter `data_offset / 16` under the item key, or the
raw bytes of the span when the `digs.bin` rule applies. -/
theorem chunked_streaming (ctr : List Nat → List Nat → Nat → List Nat → List Nat)
    (stream : List Nat → List Nat → Nat → Nat)
    (hctr : ∀ k iv c buf, ctr k iv c buf = xor_stream (stream k iv) (16 * c) buf)
    (zip_max_filename : Nat) (k iv pkg : List Nat) (enc_offset : Nat) (psp : Bool)
    (root : List Nat) (it : Item) (name : List Nat)
    (hfile : ¬ (it.flags = 4 ∨ it.flags = 18))
    (hsize : pkg.length < 2 ^ 64) (halign : it.data_offset % 16 = 0)
    (hspan : enc_offset + it.data_offset + it.data_size ≤ pkg.length) :
    ∃ path chunks,
      emit_item ctr zip_max_filename (some k) iv pkg enc_offset psp root it name =
        .ok (.file path chunks) ∧
      chunks.flatten.length = it.data_size ∧
      chunks.flatten =
        if psp = false ∧ name = lit_digs_bin then
          (pkg.drop (enc_offset + it.data_offset)).take it.data_size
        else
          ctr k iv (it.data_offset / 16)
            ((pkg.drop (enc_offset + it.data_offset)).take it.data_size) := by
  have hfuel : it.data_size < (it.data_size / 2 ^ 16 + 1) * 2 ^ 16 := by
    have := Nat.lt_div_mul_add (a := it.data_size) (b := 2 ^ 16) (by norm_num)
    omega
  obtain ⟨⟨c1, hc1, hj1⟩, h2⟩ := chunk_loop_join ctr stream hctr k iv pkg enc_offset hsize
    (it.data_size / 2 ^ 16 + 1) it.data_offset it.data_size hfuel halign hspan
  have hlen : ((pkg.drop (enc_offset + it.data_offset)).take it.data_size).length =
      it.data_size := by
    rw [List.length_take, List.length_drop]
    omega
  have h16 : 16 * (it.data_offset / 16) = it.data_offset := by omega
  by_cases hd : psp = false ∧ name = lit_digs_bin
  · obtain ⟨c2, hc2, hj2⟩ := h2 (some k)
    refine ⟨snprintf_cut 1024 (root ++ [47] ++ snprintf_cut zip_max_filename lit_body_bin), c2,
      ?_, ?_, ?_⟩
    · simp only [emit_item, hfile, if_false, hd.1, hd.2, Bool.not_false, decide_True,
        Bool.and_self, Bool.not_true, hc2, bind, Except.bind]
      rfl
    · rw [hj2, hlen]
    · rw [if_pos hd, hj2]
  · have hdigs : (!psp && decide (name = lit_digs_bin)) = false := by
      cases psp
      · have : name ≠ lit_digs_bin := fun h => hd ⟨rfl, h⟩
        simp [this]
      · simp
    refine ⟨snprintf_cut 1024 (root ++ [47] ++ name), c1, ?_, ?_, ?_⟩
    · simp only [emit_item, hfile, if_false, hdigs, Bool.not_false, hc1, bind, Except.bind,
        Bool.false_eq_true]
      rfl
    · rw [hj1, xor_stream_length, hlen]
    · rw [if_neg hd, hj1, hctr, h16]

/-- Witness for C17: the item `eboot.bin` of the container
`pkg_app 1 str_content_id` under the keystream `toy_stream`. -/
theorem chunked_streaming_witness :
    emit_item toy_ctr 1024 (some [7]) [1] (pkg_app 1 str_content_id) 416 false [97]
        { name_offset := 32, name_size := 9, data_offset := 48, data_size := 5, psp_type := 0,
          flags := 0 } str_eboot =
      .ok (.file [97, 47, 101, 98, 111, 111, 116, 46, 98, 105, 110]
        [toy_ctr [7] [1] 3 [1, 2, 3, 4, 5]]) ∧
    ∃ path chunks,
      emit_item toy_ctr 1024 (some [7]) [1] (pkg_app 1 str_content_id) 416 false [97]
        { name_offset := 32, name_size := 9, data_offset := 48, data_size := 5, psp_type := 0,
          flags := 0 } str_eboot = .ok (.file path chunks) ∧
      chunks.flatten.length = 5 ∧
      chunks.flatten =
        if false = false ∧ str_eboot = lit_digs_bin then
          ((pkg_app 1 str_content_id).drop (416 + 48)).take 5
        else
          toy_ctr [7] [1] (48 / 16) (((pkg_app 1 str_content_id).drop (416 + 48)).take 5) :=
  ⟨by decide!,
    chunked_streaming toy_ctr toy_stream (fun _ _ _ _ => rfl) 1024 [7] [1]
      (pkg_app 1 str_content_id) 416 false [97]
      { name_offset := 32, name_size := 9, data_offset := 48, data_size := 5, psp_type := 0,
        flags := 0 } str_eboot (by decide) (by decide!) (by decide) (by decide!)⟩

/-! ## C18: the keys of the counter-mode calls -/

/-- C18 (the code departs from the claim): for the Application container
`pkg_app 2 str_content_id` (selector 2) key derivation leaves `ps3_key`
unwritten, the item record is decrypted with the derived primary key, and the
item key selected for a package outside the PSP family is `ps3_key`, so the
name of the item is decrypted with a key that was never initialised; and for
selector 0 the item record itself is decrypted with the primary key although no
branch has written it. -/
theorem item_key_uninitialised :
    derive_keys toy_ecb ((pkg_app 2 str_content_id).take 256) =
        { main_key := some (toy_ecb pkg_vita_2 (List.replicate 16 0)), ps3_key := none } ∧
      item_record plain_ctr (derive_keys toy_ecb ((pkg_app 2 str_content_id).take 256))
          (List.replicate 16 0) (pkg_app 2 str_content_id) 416 0 0 =
        .ok { name_offset := 32, name_size := 9, data_offset := 48, data_size := 5,
              psp_type := 0, flags := 0 } ∧
      item_key_of false 0 (derive_keys toy_ecb ((pkg_app 2 str_content_id).take 256)) = none ∧
      item_name plain_ctr (derive_keys toy_ecb ((pkg_app 2 str_content_id).take 256))
          (List.replicate 16 0) (pkg_app 2 str_content_id) 416 false
          { name_offset := 32, name_size := 9, data_offset := 48, data_size := 5,
            psp_type := 0, flags := 0 } = .error .undefined_access ∧
      main toy_ecb plain_ctr no_decode 1024 (pkg_app 2 str_content_id) none =
        .error .undefined_access ∧
      derive_keys toy_ecb ((pkg_app 0 str_content_id).take 256) =
        { main_key := none, ps3_key := none } ∧
      item_record plain_ctr (derive_keys toy_ecb ((pkg_app 0 str_content_id).take 256))
          (List.replicate 16 0) (pkg_app 0 str_content_id) 416 0 0 =
        .error .undefined_access ∧
      main toy_ecb plain_ctr no_decode 1024 (pkg_app 0 str_content_id) none =
        .error .undefined_access := by
  refine ⟨by decide!, by decide!, by decide!, by decide!, by decide!, by decide!, by decide!,
    by decide!⟩

/-! ## C19: the reads of the metadata parser -/

/-- C19 (the code departs from the claim): the blob `sfo_far_keys` of 36 bytes
has a valid signature, one entry that passes the size test of line 43, and the
key table declared at offset 0x10000, so the first key comparison reads at
index 65536, beyond the 36 bytes of the blob (and beyond the 16 KiB buffer of
the caller), and the parser ends neither with a message nor with a result. -/
theorem parse_reads_outside_blob :
    sfo_far_keys.length = 36 ∧
      get32le sfo_far_keys 0 = .ok 0x46535000 ∧
      get32le sfo_far_keys 8 = .ok 0x10000 ∧
      get32le sfo_far_keys 16 = .ok 1 ∧
      get16le sfo_far_keys (0 * 16 % 2 ^ 32 + 20) = .ok 0 ∧
      strcmp_eq (sfo_far_keys.drop (0x10000 + 0)) key_TITLE = .error .undefined_access ∧
      parse_sfo_content sfo_far_keys 36 true true true true = .error .undefined_access := by
  refine ⟨by decide!, by decide!, by decide!, by decide!, by decide!, by decide!, by decide!⟩

/-! ## C20: the item records and header validation -/

/-- C20 (the code departs from the claim): the container `pkg_shifted_items` of
448 bytes passes header validation with `enc_offset = 416` and one item, and
its type-13 block puts the item table at offset 16, so the one item record
covers the bytes 432 to 463 and does not lie inside the container; the read
ends the run in the reader. The record offset of line 479 is a 32-bit sum: for
`items_offset = 0xFFFFFFE0` the offset of record 1 is 0 instead of `2^32`. -/
theorem item_table_outside_validated_range :
    pkg_shifted_items.length = 448 ∧
      validate_header pkg_shifted_items.length (pkg_shifted_items.take 256) =
        .ok { meta_offset := 256, meta_count := 3, item_count := 1, total_size := 448,
              enc_offset := 416, enc_size := 32, iv := List.replicate 16 0, key_type := 1 } ∧
      scan_meta pkg_shifted_items 3 256 MetaBlocks.init =
        .ok { content_type := 0x15, sfo_offset := 300, sfo_size := 113, items_offset := 16,
              items_size := 32 } ∧
      448 < 416 + 16 + 32 * 0 + 32 ∧
      item_record plain_ctr (derive_keys toy_ecb (pkg_shifted_items.take 256))
          (List.replicate 16 0) pkg_shifted_items 416 16 0 = .error .collaborator ∧
      main toy_ecb plain_ctr no_decode 1024 pkg_shifted_items none = .error .collaborator ∧
      item_offset 0xFFFFFFE0 1 = 0 ∧
      0xFFFFFFE0 + 32 * 1 = 2 ^ 32 := by
  refine ⟨by decide!, by decide!, by decide!, by decide!, by decide!, by decide!, by decide!,
    by decide!⟩

end Pkg2zip
